import Mathlib

/-!
# Client call tracer of the gRPC Python observability plugin

A shallow embedding of `client_call_tracer.cc`
(`PythonOpenCensusCallTracer` and its nested
`PythonOpenCensusCallAttemptTracer`) and of `StreamingPingPongArgs` from
`bm_fullstack_streaming_ping_pong.cc`.

Conventions of the embedding

* `uint64_t` members are `Nat` values below `2 ^ 64`; `++`, `--` and `- 1`
  are written with an explicit `% 2 ^ 64`.
* `absl::Time` and `absl::Duration` are `Int` nanoseconds; every read of
  `absl::Now()` is an argument of the hook that performs it.
* `PythonCensusStatsEnabled()` is a process-wide predicate; the value it
  returns during a hook is the argument `stats` of that hook.
* `RecordIntMetric`, `RecordDoubleMetric` and `RecordSpan` hand a value to an
  external backend; a hook returns the list of the values it handed over, in
  program order.
* `int` is `Int` with every arithmetic result checked against the 32-bit
  range; a loop takes a fuel argument and reports whether it returned.
* Floating point is not modelled: a double metric carries the exact quantity
  that the source converts (`static_cast<double>` of a byte count, or
  `ToDoubleSeconds` of a duration).
-/

namespace GrpcObservability

/-! ## Machine integers -/

/-- The increment `++x` of a `uint64_t`. -/
def incU64 (x : Nat) : Nat := (x + 1) % 2 ^ 64

/-- The decrement `--x`, and the expression `x - 1`, of a `uint64_t`. -/
def decU64 (x : Nat) : Nat := (x + (2 ^ 64 - 1)) % 2 ^ 64

/-- The value of a 64-bit pattern read as a two's complement `int64_t`. -/
def asInt64 (x : Nat) : Int := if x < 2 ^ 63 then (x : Int) else (x : Int) - 2 ^ 64

/-! ## Status codes, labels, metrics -/

/-- The enumeration `absl::StatusCode`. -/
inductive StatusCode
  | kOk
  | kCancelled
  | kUnknown
  | kInvalidArgument
  | kDeadlineExceeded
  | kNotFound
  | kAlreadyExists
  | kPermissionDenied
  | kResourceExhausted
  | kFailedPrecondition
  | kAborted
  | kOutOfRange
  | kUnimplemented
  | kInternal
  | kUnavailable
  | kDataLoss
  | kUnauthenticated
  deriving DecidableEq, Repr

/-- The label keys of `constants.h` used by the tracer, kept symbolic (the
header is not among the sources); `other` stands for any further key a
context may carry. -/
inductive LabelKey
  | kClientMethod
  | kClientTarget
  | kClientStatus
  | other (name : String)
  deriving DecidableEq, Repr

/-- One element of `PythonCensusContext::Labels()`. -/
structure Label where
  key : LabelKey
  value : String
  deriving DecidableEq, Repr

/-- The measure names of `constants.h` used by the tracer, kept symbolic. -/
inductive MetricsName
  | kRpcClientRetriesPerCallMeasureName
  | kRpcClientTransparentRetriesPerCallMeasureName
  | kRpcClientRetryDelayPerCallMeasureName
  | kRpcClientStartedRpcsMeasureName
  | kRpcClientSentBytesPerRpcMeasureName
  | kRpcClientReceivedBytesPerRpcMeasureName
  | kRpcClientServerLatencyMeasureName
  | kRpcClientRoundtripLatencyMeasureName
  | kRpcClientCompletedRpcMeasureName
  | kRpcClientSentMessagesPerRpcMeasureName
  | kRpcClientReceivedMessagesPerRpcMeasureName
  deriving DecidableEq, Repr

/-- The value argument of a metric call. `int v` is the 64-bit pattern of the
argument of `RecordIntMetric`; `bytes n` is `static_cast<double>(n)` and
`seconds ns` is `ToDoubleSeconds` of a duration of `ns` nanoseconds, both
passed to `RecordDoubleMetric`. -/
inductive MetricValue
  | int (v : Nat)
  | bytes (n : Nat)
  | seconds (ns : Int)
  deriving DecidableEq, Repr

/-- One call of `RecordIntMetric` or `RecordDoubleMetric`. -/
structure Metric where
  name : MetricsName
  value : MetricValue
  registered_method : Bool
  labels : List Label
  deriving DecidableEq, Repr

/-! ## Context (python_observability_context.h is not among the sources) -/

/-- Modelled from the spec: the span of a Context (python_observability_context.h
is missing): name, trace identity, sampling decision fixed at creation,
attributes, annotations, status, number of times it was ended, child-span
counter. -/
structure Span where
  name : String
  trace_id : String
  parent_span_id : String
  sampled : Bool
  attributes : List (String × String)
  annotations : List String
  status : Option String
  end_calls : Nat
  child_span_count : Nat
  deriving DecidableEq, Repr

/-- Modelled from the spec: `PythonCensusContext` (missing header), a span
together with an ordered list of labels. -/
structure PythonCensusContext where
  span : Span
  labels : List Label
  deriving DecidableEq, Repr

namespace PythonCensusContext

/-- Modelled from the spec: `GetSpanContext().IsSampled()` (missing header),
the sampling decision of the span. -/
def IsSampled (c : PythonCensusContext) : Bool := c.span.sampled

/-- Modelled from the spec: `AddSpanAnnotation` (missing header) appends an
annotation to the span. -/
def AddSpanAnnotation (c : PythonCensusContext) (description : String) :
    PythonCensusContext :=
  { c with span := { c.span with annotations := c.span.annotations ++ [description] } }

/-- Modelled from the spec: `AddSpanAttribute` (missing header) appends a
key/value attribute to the span. -/
def AddSpanAttribute (c : PythonCensusContext) (key value : String) :
    PythonCensusContext :=
  { c with span := { c.span with attributes := c.span.attributes ++ [(key, value)] } }

/-- Modelled from the spec: `GetSpan().SetStatus` (missing header) sets the
status of the span. -/
def SetStatus (c : PythonCensusContext) (status : String) : PythonCensusContext :=
  { c with span := { c.span with status := some status } }

/-- Modelled from the spec: `EndSpan` (missing header) ends the span; the
model counts the calls. -/
def EndSpan (c : PythonCensusContext) : PythonCensusContext :=
  { c with span := { c.span with end_calls := c.span.end_calls + 1 } }

/-- Modelled from the spec: `IncreaseChildSpanCount` (missing header)
increments the child-span counter of the span. -/
def IncreaseChildSpanCount (c : PythonCensusContext) : PythonCensusContext :=
  { c with span := { c.span with child_span_count := c.span.child_span_count + 1 } }

/-- Modelled from the spec: the constructor
`PythonCensusContext(name, parent_span, labels)` (missing header): a child
span of `parent_span` with the sampling decision of the parent, and a copy of
the given labels. -/
def child (name : String) (parent_span : Span) (labels : List Label) :
    PythonCensusContext :=
  { span :=
      { name := name
        trace_id := parent_span.trace_id
        parent_span_id := parent_span.name
        sampled := parent_span.sampled
        attributes := []
        annotations := []
        status := none
        end_calls := 0
        child_span_count := 0 }
    labels := labels }

end PythonCensusContext

/-- Modelled from the spec: `GenerateClientContext` (observability_util is
missing) builds the root context of a call from its name and the trace
identity of the caller; the sampling decision and the initial labels it
chooses are arguments. -/
def GenerateClientContext (name trace_id parent_span_id : String) (sampled : Bool)
    (labels : List Label) : PythonCensusContext :=
  { span :=
      { name := name
        trace_id := trace_id
        parent_span_id := parent_span_id
        sampled := sampled
        attributes := []
        annotations := []
        status := none
        end_calls := 0
        child_span_count := 0 }
    labels := labels }

/-! ## External collaborators -/

/-- A `grpc_metadata_batch`, reduced to the three reserved binary fields the
tracer touches; a field is a list of bytes. -/
structure MetadataBatch where
  GrpcTraceBinMetadata : Option (List Nat)
  GrpcTagsBinMetadata : Option (List Nat)
  GrpcServerStatsBinMetadata : Option (List Nat)
  deriving DecidableEq, Repr

/-- The two fields of `grpc_transport_stream_stats` the tracer reads. -/
structure TransportStreamStats where
  outgoing_data_bytes : Nat
  incoming_data_bytes : Nat
  deriving DecidableEq, Repr

/-- A structured `Annotation`: its `type()` and the result of `ToString()`. -/
structure Annotation where
  type : Nat
  text : String
  deriving DecidableEq, Repr

/-- The helpers of absl and of observability_util that the tracer calls and
that are not among the sources, as parameters: the name of a status code, the
unbounded wire encoding of a trace context, the unbounded wire encoding of the
current tags, and the decoder of a server-stats blob (`none` on a malformed
blob). -/
structure Deps where
  StatusCodeToString : StatusCode → String
  traceContextEncoding : PythonCensusContext → List Nat
  tagsEncoding : List Nat
  serverStatsDecoding : List Nat → Option Nat

/-- The bound `kMaxTraceContextLen` of client_call_tracer.h (missing header;
the value is the one the spec gives). -/
def kMaxTraceContextLen : Nat := 64

/-- The bound `kMaxTagsLen` of client_call_tracer.h (missing header; the value
is the one the spec gives). -/
def kMaxTagsLen : Nat := 2048

/-- Modelled from the spec: `TraceContextSerialize` (observability_util is
missing) returns the encoding when it fits in the buffer and a zero-length
result on overflow. -/
def TraceContextSerialize (d : Deps) (context : PythonCensusContext) (buf_size : Nat) :
    List Nat :=
  if (d.traceContextEncoding context).length ≤ buf_size then d.traceContextEncoding context
  else []

/-- Modelled from the spec: `StatsContextSerialize` (observability_util is
missing) returns the encoded tags when they fit in `max_tags_len` bytes and a
zero-length result otherwise. -/
def StatsContextSerialize (d : Deps) (max_tags_len : Nat) : List Nat :=
  if d.tagsEncoding.length ≤ max_tags_len then d.tagsEncoding else []

/-- Modelled from the spec: `ServerStatsDeserialize` (observability_util is
missing) stores the decoded elapsed time in its output argument and leaves the
output argument untouched on a malformed blob; the result is the value of the
output argument afterwards. -/
def ServerStatsDeserialize (d : Deps) (buf : List Nat) (elapsed_time : Nat) : Nat :=
  match d.serverStatsDecoding buf with
  | some t => t
  | none => elapsed_time

/-! ## PythonOpenCensusCallTracer -/

/-- What a hook hands to the external backends: the metric calls and the
`RecordSpan` calls, each in program order. -/
structure Output where
  metrics : List Metric
  spans : List Span
  deriving DecidableEq, Repr

/-- The members of `PythonOpenCensusCallTracer` (the mutex is not modelled:
every hook runs as one step). `method_` and `target_` hold the results of
`GetMethod` and `GetTarget`. -/
structure PythonOpenCensusCallTracer where
  method_ : String
  target_ : String
  context_ : PythonCensusContext
  tracing_enabled_ : Bool
  registered_method_ : Bool
  retries_ : Nat
  transparent_retries_ : Nat
  retry_delay_ : Int
  time_at_last_attempt_end_ : Int
  num_active_rpcs_ : Nat
  deriving DecidableEq, Repr

/-- The members of `PythonOpenCensusCallAttemptTracer`; `parent_` is not a
member here, every hook takes the parent as an argument. -/
structure PythonOpenCensusCallAttemptTracer where
  context_ : PythonCensusContext
  start_time_ : Int
  recv_message_count_ : Nat
  sent_message_count_ : Nat
  status_code_ : StatusCode
  deriving DecidableEq, Repr

namespace PythonOpenCensusCallTracer

/-- The constructor: the root context is named `Sent.<method>` and the
counters start at zero; `sampled` and `labels` are what
`GenerateClientContext` chooses. -/
def create (method_ target_ trace_id parent_span_id : String)
    (tracing_enabled registered_method : Bool) (sampled : Bool) (labels : List Label) :
    PythonOpenCensusCallTracer :=
  { method_ := method_
    target_ := target_
    context_ := GenerateClientContext ("Sent." ++ method_) trace_id parent_span_id sampled labels
    tracing_enabled_ := tracing_enabled
    registered_method_ := registered_method
    retries_ := 0
    transparent_retries_ := 0
    retry_delay_ := 0
    time_at_last_attempt_end_ := 0
    num_active_rpcs_ := 0 }

/-- Modelled from the spec: the member `IsSampled()` of client_call_tracer.h
(missing header), the sampling decision of the context of the tracer. -/
def IsSampled (t : PythonOpenCensusCallTracer) : Bool := t.context_.IsSampled

/-- The overload `RecordAnnotation(absl::string_view)`. -/
def RecordAnnotation (t : PythonOpenCensusCallTracer) ( annotation : String) :
    PythonOpenCensusCallTracer :=
  if !t.context_.IsSampled then t
  else { t with context_ := t.context_.AddSpanAnnotation annotation }

/-- The overload `RecordAnnotation(const Annotation&)`; the `switch` has only
a `default` label. -/
def RecordAnnotationStructured (t : PythonOpenCensusCallTracer) ( annotation : Annotation) :
    PythonOpenCensusCallTracer :=
  if !t.context_.IsSampled then t
  else if t.IsSampled then { t with context_ := t.context_.AddSpanAnnotation annotation.text }
  else t

/-- The destructor: the state after it ran, and what it emitted. -/
def destructor (stats : Bool) (t : PythonOpenCensusCallTracer) :
    PythonOpenCensusCallTracer × Output :=
  let t1 : PythonOpenCensusCallTracer :=
    if stats then
      { t with context_ :=
          { t.context_ with labels := t.context_.labels ++ [⟨LabelKey.kClientMethod, t.method_⟩] } }
    else t
  let ms : List Metric :=
    if stats then
      [ ⟨MetricsName.kRpcClientRetriesPerCallMeasureName, MetricValue.int (decU64 t1.retries_),
          t1.registered_method_, t1.context_.labels⟩,
        ⟨MetricsName.kRpcClientTransparentRetriesPerCallMeasureName,
          MetricValue.int t1.transparent_retries_, t1.registered_method_, t1.context_.labels⟩,
        ⟨MetricsName.kRpcClientRetryDelayPerCallMeasureName, MetricValue.seconds t1.retry_delay_,
          t1.registered_method_, t1.context_.labels⟩ ]
    else []
  let t2 : PythonOpenCensusCallTracer :=
    if t1.tracing_enabled_ then { t1 with context_ := t1.context_.EndSpan } else t1
  let sp : List Span :=
    if t1.tracing_enabled_ then (if t2.IsSampled then [t2.context_.span] else []) else []
  (t2, ⟨ms, sp⟩)

/-- The member `CreateCensusContextForCallAttempt`. -/
def CreateCensusContextForCallAttempt (t : PythonOpenCensusCallTracer) : PythonCensusContext :=
  PythonCensusContext.child ("Attempt." ++ t.method_) t.context_.span t.context_.labels

end PythonOpenCensusCallTracer

/-- The file-local helper `GetElapsedTimeFromTrailingMetadata`; the batch is
dereferenced, so the argument is a batch that exists. -/
def GetElapsedTimeFromTrailingMetadata (d : Deps) (stats : Bool) (b : MetadataBatch) : Nat :=
  if !stats then 0
  else
    match b.GrpcServerStatsBinMetadata with
    | none => 0
    | some blob => ServerStatsDeserialize d blob 0

namespace PythonOpenCensusCallAttemptTracer

/-- The constructor. `start_now` is the read of `absl::Now()` that initialises
`start_time_`; `status0` is the value the member `status_code_` holds when the
constructor returns (the constructor does not assign it). The result is the
new attempt and the metrics emitted. -/
def create (stats : Bool) (start_now : Int) (status0 : StatusCode)
    (parent : PythonOpenCensusCallTracer) (attempt_num : Nat) (is_transparent_retry : Bool) :
    PythonOpenCensusCallAttemptTracer × List Metric :=
  let c0 := parent.CreateCensusContextForCallAttempt
  let c1 :=
    if parent.tracing_enabled_ then
      (c0.AddSpanAttribute "previous-rpc-attempts" (toString attempt_num)).AddSpanAttribute
        "transparent-retry" (if is_transparent_retry then "1" else "0")
    else c0
  if !stats then
    (⟨c1, start_now, 0, 0, status0⟩, [])
  else
    let c2 : PythonCensusContext :=
      { c1 with labels := c1.labels ++
          [⟨LabelKey.kClientMethod, parent.method_⟩, ⟨LabelKey.kClientTarget, parent.target_⟩] }
    (⟨c2, start_now, 0, 0, status0⟩,
      [⟨MetricsName.kRpcClientStartedRpcsMeasureName, MetricValue.int 1,
        parent.registered_method_, c2.labels⟩])

/-- Modelled from the spec: the member `IsSampled()` of client_call_tracer.h
(missing header), the sampling decision of the context of the attempt. -/
def IsSampled (a : PythonOpenCensusCallAttemptTracer) : Bool := a.context_.IsSampled

/-- The hook `RecordSendInitialMetadata`: the metadata batch after the hook.
The attempt itself is not changed. -/
def RecordSendInitialMetadata (d : Deps) (stats : Bool) (parent : PythonOpenCensusCallTracer)
    (a : PythonOpenCensusCallAttemptTracer) (send_initial_metadata : MetadataBatch) :
    MetadataBatch :=
  let tracing_buf := TraceContextSerialize d a.context_ kMaxTraceContextLen
  let m1 : MetadataBatch :=
    if parent.tracing_enabled_ then
      (if tracing_buf.length > 0 then
        { send_initial_metadata with
            GrpcTraceBinMetadata := some (tracing_buf.take tracing_buf.length) }
       else send_initial_metadata)
    else send_initial_metadata
  if !stats then m1
  else
    let tags := StatsContextSerialize d kMaxTagsLen
    if tags.length > 0 then { m1 with GrpcTagsBinMetadata := some tags } else m1

/-- The hook `RecordSendMessage`. -/
def RecordSendMessage (a : PythonOpenCensusCallAttemptTracer) :
    PythonOpenCensusCallAttemptTracer :=
  { a with sent_message_count_ := incU64 a.sent_message_count_ }

/-- The hook `RecordReceivedMessage`. -/
def RecordReceivedMessage (a : PythonOpenCensusCallAttemptTracer) :
    PythonOpenCensusCallAttemptTracer :=
  { a with recv_message_count_ := incU64 a.recv_message_count_ }

/-- The hook `RecordReceivedTrailingMetadata`: the attempt after the hook and
the metrics emitted. The status code of the argument is held in a variable
local to the hook (declared with `auto`), so the member `status_code_` of the
attempt is not assigned. -/
def RecordReceivedTrailingMetadata (d : Deps) (stats : Bool) (now : Int)
    (parent : PythonOpenCensusCallTracer) (a : PythonOpenCensusCallAttemptTracer)
    (status : StatusCode) (recv_trailing_metadata : Option MetadataBatch)
    (transport_stream_stats : Option TransportStreamStats) :
    PythonOpenCensusCallAttemptTracer × List Metric :=
  if !stats then (a, [])
  else
    let local_status_code := status
    let elapsed_time : Nat :=
      match recv_trailing_metadata with
      | some b => GetElapsedTimeFromTrailingMetadata d stats b
      | none => 0
    let final_status := d.StatusCodeToString local_status_code
    let c : PythonCensusContext :=
      { a.context_ with labels := a.context_.labels ++
          [⟨LabelKey.kClientMethod, parent.method_⟩, ⟨LabelKey.kClientTarget, parent.target_⟩,
           ⟨LabelKey.kClientStatus, final_status⟩] }
    let sent : Nat :=
      match transport_stream_stats with
      | some ts => ts.outgoing_data_bytes
      | none => 0
    let received : Nat :=
      match transport_stream_stats with
      | some ts => ts.incoming_data_bytes
      | none => 0
    ({ a with context_ := c },
      [ ⟨MetricsName.kRpcClientSentBytesPerRpcMeasureName, MetricValue.bytes sent,
          parent.registered_method_, c.labels⟩,
        ⟨MetricsName.kRpcClientReceivedBytesPerRpcMeasureName, MetricValue.bytes received,
          parent.registered_method_, c.labels⟩,
        ⟨MetricsName.kRpcClientServerLatencyMeasureName, MetricValue.seconds (elapsed_time : Int),
          parent.registered_method_, c.labels⟩,
        ⟨MetricsName.kRpcClientRoundtripLatencyMeasureName, MetricValue.seconds (now - a.start_time_),
          parent.registered_method_, c.labels⟩,
        ⟨MetricsName.kRpcClientCompletedRpcMeasureName, MetricValue.int 1,
          parent.registered_method_, c.labels⟩ ])

/-- The hook `RecordCancel`, an empty body. -/
def RecordCancel (a : PythonOpenCensusCallAttemptTracer) : PythonOpenCensusCallAttemptTracer := a

/-- The hook `RecordEnd`: the parent after the hook, the attempt in the state
in which `delete this` releases it, and what was emitted. -/
def RecordEnd (d : Deps) (stats : Bool) (now : Int) (parent : PythonOpenCensusCallTracer)
    (a : PythonOpenCensusCallAttemptTracer) :
    PythonOpenCensusCallTracer × PythonOpenCensusCallAttemptTracer × Output :=
  let c1 : PythonCensusContext :=
    if stats then
      { a.context_ with labels := a.context_.labels ++
          [⟨LabelKey.kClientMethod, parent.method_⟩,
           ⟨LabelKey.kClientStatus, d.StatusCodeToString a.status_code_⟩] }
    else a.context_
  let ms : List Metric :=
    if stats then
      [ ⟨MetricsName.kRpcClientSentMessagesPerRpcMeasureName, MetricValue.int a.sent_message_count_,
          parent.registered_method_, c1.labels⟩,
        ⟨MetricsName.kRpcClientReceivedMessagesPerRpcMeasureName,
          MetricValue.int a.recv_message_count_, parent.registered_method_, c1.labels⟩ ]
    else []
  let parent1 : PythonOpenCensusCallTracer :=
    if stats then
      let p : PythonOpenCensusCallTracer :=
        { parent with num_active_rpcs_ := decU64 parent.num_active_rpcs_ }
      if p.num_active_rpcs_ = 0 then { p with time_at_last_attempt_end_ := now } else p
    else parent
  let c2 : PythonCensusContext :=
    if parent.tracing_enabled_ then
      (if a.status_code_ ≠ StatusCode.kOk then
        c1.SetStatus (d.StatusCodeToString a.status_code_)
       else c1)
    else c1
  let c3 : PythonCensusContext := if parent.tracing_enabled_ then c2.EndSpan else c2
  let a3 : PythonOpenCensusCallAttemptTracer := { a with context_ := c3 }
  let sp : List Span :=
    if parent.tracing_enabled_ then (if a3.IsSampled then [c3.span] else []) else []
  (parent1, a3, ⟨ms, sp⟩)

/-- The overload `RecordAnnotation(absl::string_view)` of the attempt. -/
def RecordAnnotation (a : PythonOpenCensusCallAttemptTracer) ( annotation : String) :
    PythonOpenCensusCallAttemptTracer :=
  if !a.context_.IsSampled then a
  else { a with context_ := a.context_.AddSpanAnnotation annotation }

/-- The overload `RecordAnnotation(const Annotation&)` of the attempt. -/
def RecordAnnotationStructured (a : PythonOpenCensusCallAttemptTracer)
    ( annotation : Annotation) : PythonOpenCensusCallAttemptTracer :=
  if !a.context_.IsSampled then a
  else if a.IsSampled then { a with context_ := a.context_.AddSpanAnnotation annotation.text }
  else a

end PythonOpenCensusCallAttemptTracer

namespace PythonOpenCensusCallTracer

/-- The member `StartNewAttempt`: the tracer after the call, the new attempt
and the metrics the constructor of the attempt emitted. `now` is the read of
`absl::Now()` under the mutex. -/
def StartNewAttempt (stats : Bool) (now start_now : Int) (status0 : StatusCode)
    (t : PythonOpenCensusCallTracer) (is_transparent_retry : Bool) :
    PythonOpenCensusCallTracer × PythonOpenCensusCallAttemptTracer × List Metric :=
  let retry_delay : Int :=
    if t.transparent_retries_ ≠ 0 ∨ t.retries_ ≠ 0 then
      (if stats ∧ t.num_active_rpcs_ = 0 then
        t.retry_delay_ + (now - t.time_at_last_attempt_end_)
       else t.retry_delay_)
    else t.retry_delay_
  let attempt_num := t.retries_
  let t1 : PythonOpenCensusCallTracer :=
    { t with
        retry_delay_ := retry_delay
        transparent_retries_ :=
          if is_transparent_retry then incU64 t.transparent_retries_ else t.transparent_retries_
        retries_ := if is_transparent_retry then t.retries_ else incU64 t.retries_
        num_active_rpcs_ := incU64 t.num_active_rpcs_ }
  let t2 : PythonOpenCensusCallTracer := { t1 with context_ := t1.context_.IncreaseChildSpanCount }
  let r := PythonOpenCensusCallAttemptTracer.create stats start_now status0 t2 attempt_num
    is_transparent_retry
  (t2, r.1, r.2)

end PythonOpenCensusCallTracer

/-! ## Lifecycles: the call tracer, its live attempts and the backends -/

/-- The attempt with handle `id` among the live attempts. -/
def findAttempt (id : Nat) :
    List (Nat × PythonOpenCensusCallAttemptTracer) → Option PythonOpenCensusCallAttemptTracer
  | [] => none
  | (i, a) :: rest => if i = id then some a else findAttempt id rest

/-- The live attempts after the attempt with handle `id` was mutated to `b`. -/
def replaceAttempt (id : Nat) (b : PythonOpenCensusCallAttemptTracer) :
    List (Nat × PythonOpenCensusCallAttemptTracer) →
      List (Nat × PythonOpenCensusCallAttemptTracer)
  | [] => []
  | (i, a) :: rest => if i = id then (i, b) :: rest else (i, a) :: replaceAttempt id b rest

/-- The live attempts after the attempt with handle `id` was released. -/
def removeAttempt (id : Nat) :
    List (Nat × PythonOpenCensusCallAttemptTracer) →
      List (Nat × PythonOpenCensusCallAttemptTracer)
  | [] => []
  | (i, a) :: rest => if i = id then rest else (i, a) :: removeAttempt id rest

/-- One call as the RPC engine sees it: the call tracer, the attempts that
were started and not yet ended (each under the handle `StartNewAttempt`
returned), the attempts already released (in the state `delete this` found
them in), and everything handed to the stats backend, the tracing backend and
the outbound metadata so far. -/
structure System where
  call : PythonOpenCensusCallTracer
  attempts : List (Nat × PythonOpenCensusCallAttemptTracer)
  next_id : Nat
  released : List PythonOpenCensusCallAttemptTracer
  metrics : List Metric
  spans : List Span
  sent_metadata : List MetadataBatch
  deriving DecidableEq, Repr

/-- The system right after the constructor of the call tracer. -/
def System.start (t : PythonOpenCensusCallTracer) : System :=
  { call := t, attempts := [], next_id := 0, released := [], metrics := [], spans := [],
    sent_metadata := [] }

/-- The lifecycle hooks the RPC engine invokes, with the values read from the
environment during the hook (`stats`, the clock reads). -/
inductive Event
  | StartNewAttempt (stats : Bool) (now start_now : Int) (status0 : StatusCode)
      (is_transparent_retry : Bool)
  | RecordSendInitialMetadata (id : Nat) (stats : Bool) (send_initial_metadata : MetadataBatch)
  | RecordSendMessage (id : Nat)
  | RecordReceivedMessage (id : Nat)
  | RecordReceivedTrailingMetadata (id : Nat) (stats : Bool) (now : Int) (status : StatusCode)
      (recv_trailing_metadata : Option MetadataBatch)
      (transport_stream_stats : Option TransportStreamStats)
  | RecordCancel (id : Nat)
  | RecordEnd (id : Nat) (stats : Bool) (now : Int)
  | AttemptRecordAnnotation (id : Nat) ( annotation : String)
  | AttemptRecordAnnotationStructured (id : Nat) ( annotation : Annotation)
  | CallRecordAnnotation ( annotation : String)
  | CallRecordAnnotationStructured ( annotation : Annotation)
  deriving DecidableEq, Repr

/-- One hook. A hook on a handle that is not live (never returned, or already
released by `RecordEnd`) is outside the contract of the engine and has no
result. -/
def step (d : Deps) (s : System) : Event → Option System
  | Event.StartNewAttempt stats now start_now status0 is_transparent_retry =>
    let r := s.call.StartNewAttempt stats now start_now status0 is_transparent_retry
    some { s with
      call := r.1
      attempts := s.attempts ++ [(s.next_id, r.2.1)]
      next_id := s.next_id + 1
      metrics := s.metrics ++ r.2.2 }
  | Event.RecordSendInitialMetadata id stats md =>
    (findAttempt id s.attempts).map fun a =>
      { s with sent_metadata :=
          s.sent_metadata ++ [a.RecordSendInitialMetadata d stats s.call md] }
  | Event.RecordSendMessage id =>
    (findAttempt id s.attempts).map fun a =>
      { s with attempts := replaceAttempt id a.RecordSendMessage s.attempts }
  | Event.RecordReceivedMessage id =>
    (findAttempt id s.attempts).map fun a =>
      { s with attempts := replaceAttempt id a.RecordReceivedMessage s.attempts }
  | Event.RecordReceivedTrailingMetadata id stats now status md ts =>
    (findAttempt id s.attempts).map fun a =>
      let r := a.RecordReceivedTrailingMetadata d stats now s.call status md ts
      { s with attempts := replaceAttempt id r.1 s.attempts, metrics := s.metrics ++ r.2 }
  | Event.RecordCancel id =>
    (findAttempt id s.attempts).map fun a =>
      { s with attempts := replaceAttempt id a.RecordCancel s.attempts }
  | Event.RecordEnd id stats now =>
    (findAttempt id s.attempts).map fun a =>
      let r := a.RecordEnd d stats now s.call
      { s with
        call := r.1
        attempts := removeAttempt id s.attempts
        released := s.released ++ [r.2.1]
        metrics := s.metrics ++ r.2.2.metrics
        spans := s.spans ++ r.2.2.spans }
  | Event.AttemptRecordAnnotation id annotation =>
    (findAttempt id s.attempts).map fun a =>
      { s with attempts := replaceAttempt id (a.RecordAnnotation annotation) s.attempts }
  | Event.AttemptRecordAnnotationStructured id annotation =>
    (findAttempt id s.attempts).map fun a =>
      { s with attempts := replaceAttempt id (a.RecordAnnotationStructured annotation) s.attempts }
  | Event.CallRecordAnnotation annotation =>
    some { s with call := s.call.RecordAnnotation annotation }
  | Event.CallRecordAnnotationStructured annotation =>
    some { s with call := s.call.RecordAnnotationStructured annotation }

/-- A sequence of hooks, in order. -/
def run (d : Deps) (s : System) : List Event → Option System
  | [] => some s
  | e :: rest => (step d s e).bind fun s1 => run d s1 rest

/-- The end of the call: the destructor of the call tracer runs on the state
the hooks left; the result is everything the backends received during the
whole lifecycle, and the call tracer as the destructor left it. -/
def finish (stats : Bool) (s : System) : System :=
  let r := s.call.destructor stats
  { s with call := r.1, metrics := s.metrics ++ r.2.metrics, spans := s.spans ++ r.2.spans }

/-! ## Observations on lifecycles -/

/-- Number of `StartNewAttempt(false)` calls in a sequence of hooks. -/
def countRetries : List Event → Nat
  | [] => 0
  | Event.StartNewAttempt _ _ _ _ false :: rest => countRetries rest + 1
  | _ :: rest => countRetries rest

/-- Number of `StartNewAttempt(true)` calls in a sequence of hooks. -/
def countTransparentRetries : List Event → Nat
  | [] => 0
  | Event.StartNewAttempt _ _ _ _ true :: rest => countTransparentRetries rest + 1
  | _ :: rest => countTransparentRetries rest

/-- Number of `RecordReceivedTrailingMetadata` hooks in a sequence of hooks. -/
def countTrailers : List Event → Nat
  | [] => 0
  | Event.RecordReceivedTrailingMetadata _ _ _ _ _ _ :: rest => countTrailers rest + 1
  | _ :: rest => countTrailers rest

/-- The value `PythonCensusStatsEnabled()` returned during a hook, for the
hooks that read it. -/
def Event.statsRead : Event → Option Bool
  | Event.StartNewAttempt stats _ _ _ _ => some stats
  | Event.RecordSendInitialMetadata _ stats _ => some stats
  | Event.RecordReceivedTrailingMetadata _ stats _ _ _ _ => some stats
  | Event.RecordEnd _ stats _ => some stats
  | _ => none

/-- Stats collection has the value `b` during every hook of the sequence. -/
def statsThroughout (b : Bool) (evs : List Event) : Prop :=
  ∀ e ∈ evs, ∀ v, e.statsRead = some v → v = b

instance (b : Bool) (evs : List Event) : Decidable (statsThroughout b evs) := by
  unfold statsThroughout
  exact List.decidableBAll _ evs

/-- Stats collection is enabled during every `RecordEnd` of the sequence. -/
def statsAtEveryEnd : List Event → Prop
  | [] => True
  | Event.RecordEnd _ stats _ :: rest => stats = true ∧ statsAtEveryEnd rest
  | _ :: rest => statsAtEveryEnd rest

/-- The values of the metric calls with the given name, in emission order. -/
def valuesOf (n : MetricsName) (ms : List Metric) : List MetricValue :=
  (ms.filter fun m => m.name = n).map Metric.value

/-! ## Sample inputs -/

/-- The names `absl::StatusCodeToString` gives the status codes. -/
def abslStatusCodeToString : StatusCode → String
  | StatusCode.kOk => "OK"
  | StatusCode.kCancelled => "CANCELLED"
  | StatusCode.kUnknown => "UNKNOWN"
  | StatusCode.kInvalidArgument => "INVALID_ARGUMENT"
  | StatusCode.kDeadlineExceeded => "DEADLINE_EXCEEDED"
  | StatusCode.kNotFound => "NOT_FOUND"
  | StatusCode.kAlreadyExists => "ALREADY_EXISTS"
  | StatusCode.kPermissionDenied => "PERMISSION_DENIED"
  | StatusCode.kResourceExhausted => "RESOURCE_EXHAUSTED"
  | StatusCode.kFailedPrecondition => "FAILED_PRECONDITION"
  | StatusCode.kAborted => "ABORTED"
  | StatusCode.kOutOfRange => "OUT_OF_RANGE"
  | StatusCode.kUnimplemented => "UNIMPLEMENTED"
  | StatusCode.kInternal => "INTERNAL"
  | StatusCode.kUnavailable => "UNAVAILABLE"
  | StatusCode.kDataLoss => "DATA_LOSS"
  | StatusCode.kUnauthenticated => "UNAUTHENTICATED"

/-- A sample instance of the external helpers: a trace context is encoded in
one byte per character of the span name, the tags in three bytes, and a
server-stats blob is well formed when it is a zero byte followed by one byte
that holds the elapsed time. -/
def sampleDeps : Deps :=
  { StatusCodeToString := abslStatusCodeToString
    traceContextEncoding := fun c => List.replicate c.span.name.length 7
    tagsEncoding := [1, 2, 3]
    serverStatsDecoding := fun buf =>
      match buf with
      | [0, t] => some t
      | _ => none }

/-- A sample call tracer: tracing enabled, a sampled root span, no labels. -/
def sampleCall : PythonOpenCensusCallTracer :=
  PythonOpenCensusCallTracer.create "pkg.Svc/Do" "dns:///srv" "t1" "p1" true true true []

/-- A sample lifecycle with stats enabled throughout: two attempts fail with
`kUnavailable`, a transparent retry is started, and the last attempt succeeds;
every attempt receives trailing metadata and is ended. Three attempts are
started with `is_transparent_retry = false` and one with `true`. -/
def lifecycleB : List Event :=
  [ Event.StartNewAttempt true 10 11 StatusCode.kOk false,
    Event.RecordSendInitialMetadata 0 true ⟨none, none, none⟩,
    Event.RecordSendMessage 0,
    Event.RecordReceivedTrailingMetadata 0 true 20 StatusCode.kUnavailable none none,
    Event.RecordEnd 0 true 21,
    Event.StartNewAttempt true 30 31 StatusCode.kOk false,
    Event.RecordReceivedTrailingMetadata 1 true 40 StatusCode.kUnavailable none none,
    Event.RecordEnd 1 true 41,
    Event.StartNewAttempt true 50 51 StatusCode.kOk true,
    Event.RecordReceivedTrailingMetadata 2 true 60 StatusCode.kUnavailable none none,
    Event.RecordEnd 2 true 61,
    Event.StartNewAttempt true 70 71 StatusCode.kOk false,
    Event.RecordSendMessage 3,
    Event.RecordReceivedMessage 3,
    Event.RecordReceivedTrailingMetadata 3 true 80 StatusCode.kOk
      (some ⟨none, none, some [0, 5]⟩) (some ⟨100, 200⟩),
    Event.RecordEnd 3 true 81 ]

/-- A lifecycle with stats collection disabled: one attempt is started and
ended. -/
def lifecycleNoStats : List Event :=
  [ Event.StartNewAttempt false 10 11 StatusCode.kOk false,
    Event.RecordEnd 0 false 20 ]

/-- A lifecycle with stats enabled in which the only attempt receives trailing
metadata with status `kUnavailable` and is then ended; the member
`status_code_` holds `kOk` when the attempt is constructed. -/
def lifecycleUnavailable : List Event :=
  [ Event.StartNewAttempt true 10 11 StatusCode.kOk false,
    Event.RecordReceivedTrailingMetadata 0 true 20 StatusCode.kUnavailable none none,
    Event.RecordEnd 0 true 21 ]

/-- A lifecycle with three attempts in total, one of them a transparent retry,
with stats enabled throughout. -/
def lifecycleThreeStarts : List Event :=
  [ Event.StartNewAttempt true 10 11 StatusCode.kOk false,
    Event.RecordReceivedTrailingMetadata 0 true 20 StatusCode.kUnavailable none none,
    Event.RecordEnd 0 true 21,
    Event.StartNewAttempt true 30 31 StatusCode.kOk true,
    Event.RecordReceivedTrailingMetadata 1 true 40 StatusCode.kUnavailable none none,
    Event.RecordEnd 1 true 41,
    Event.StartNewAttempt true 50 51 StatusCode.kOk false,
    Event.RecordReceivedTrailingMetadata 2 true 60 StatusCode.kOk none none,
    Event.RecordEnd 2 true 61 ]

/-- Number of `RecordEnd` hooks in a sequence of hooks. -/
def countEnds : List Event → Nat
  | [] => 0
  | Event.RecordEnd _ _ _ :: rest => countEnds rest + 1
  | _ :: rest => countEnds rest

/-- The state of the spans of a call with tracing enabled whose root span has
the sampling decision `smp`: the call span and the spans of the live attempts
are not ended, the span of every released attempt was ended exactly once, all
spans carry the sampling decision of the root span, and the tracing backend
received exactly the spans of the released attempts that are sampled, in the
order of release. -/
def SpanInv (smp : Bool) (s : System) : Prop :=
  s.call.tracing_enabled_ = true ∧
  s.call.context_.span.end_calls = 0 ∧
  s.call.context_.span.sampled = smp ∧
  (∀ p ∈ s.attempts, p.2.context_.span.end_calls = 0 ∧ p.2.context_.span.sampled = smp) ∧
  (∀ a ∈ s.released, a.context_.span.end_calls = 1 ∧ a.context_.span.sampled = smp) ∧
  s.spans = (s.released.map fun a => a.context_.span).filter fun sp => sp.sampled

/-- A lifecycle with stats collection disabled throughout: two attempts, the
first of which fails. -/
def lifecycleC : List Event :=
  [ Event.StartNewAttempt false 10 11 StatusCode.kUnavailable false,
    Event.RecordSendInitialMetadata 0 false ⟨none, none, none⟩,
    Event.RecordSendMessage 0,
    Event.RecordReceivedTrailingMetadata 0 false 20 StatusCode.kUnavailable none none,
    Event.RecordEnd 0 false 21,
    Event.StartNewAttempt false 30 31 StatusCode.kOk false,
    Event.CallRecordAnnotation "retrying",
    Event.RecordReceivedTrailingMetadata 1 false 40 StatusCode.kOk none none,
    Event.RecordEnd 1 false 41 ]

/-- A sample call tracer with tracing enabled whose root span is not
sampled. -/
def sampleCallUnsampled : PythonOpenCensusCallTracer :=
  PythonOpenCensusCallTracer.create "pkg.Svc/Do" "dns:///srv" "t1" "p1" true true false []

/-- A lifecycle with stats enabled and a single attempt that sends its
initial metadata and a message, receives a message and trailing metadata with
status `kOk`, and is ended. -/
def lifecycleA : List Event :=
  [ Event.StartNewAttempt true 10 11 StatusCode.kOk false,
    Event.RecordSendInitialMetadata 0 true ⟨none, none, none⟩,
    Event.RecordSendMessage 0,
    Event.RecordReceivedMessage 0,
    Event.RecordReceivedTrailingMetadata 0 true 20 StatusCode.kOk
      (some ⟨none, none, some [0, 5]⟩) (some ⟨100, 200⟩),
    Event.RecordEnd 0 true 21 ]

/-- The state of the annotations of a call whose root span is not sampled: no
span of the call is sampled and no span carries an annotation. -/
def UnsampledInv (s : System) : Prop :=
  (s.call.context_.span.sampled = false ∧ s.call.context_.span.annotations = []) ∧
  (∀ p ∈ s.attempts,
    p.2.context_.span.sampled = false ∧ p.2.context_.span.annotations = []) ∧
  (∀ a ∈ s.released, a.context_.span.sampled = false ∧ a.context_.span.annotations = [])

/-- A lifecycle with annotations recorded on the call tracer and on the
attempt, as text and structured. -/
def lifecycleD : List Event :=
  [ Event.CallRecordAnnotation "call started",
    Event.StartNewAttempt true 10 11 StatusCode.kOk false,
    Event.AttemptRecordAnnotation 0 "attempt started",
    Event.AttemptRecordAnnotationStructured 0 ⟨1, "structured"⟩,
    Event.CallRecordAnnotationStructured ⟨2, "structured on call"⟩,
    Event.RecordReceivedTrailingMetadata 0 true 20 StatusCode.kOk none none,
    Event.RecordEnd 0 true 21 ]

/-- The attempt the unsampled sample call creates first, with stats
enabled. -/
def sampleAttemptUnsampled : PythonOpenCensusCallAttemptTracer :=
  (PythonOpenCensusCallAttemptTracer.create true 11 StatusCode.kOk sampleCallUnsampled 0 false).1

/-- A lifecycle in which `StartNewAttempt` is called only with
`is_transparent_retry = true`, with stats enabled. -/
def lifecycleTransparentOnly : List Event :=
  [ Event.StartNewAttempt true 10 11 StatusCode.kOk true,
    Event.RecordReceivedTrailingMetadata 0 true 20 StatusCode.kOk none none,
    Event.RecordEnd 0 true 21 ]

/-- Number of `RecordSendMessage` hooks on the attempt with handle `id`. -/
def countSendMessages (id : Nat) (evs : List Event) : Nat :=
  evs.count (Event.RecordSendMessage id)

/-- Number of `RecordReceivedMessage` hooks on the attempt with handle `id`. -/
def countReceivedMessages (id : Nat) (evs : List Event) : Nat :=
  evs.count (Event.RecordReceivedMessage id)

/-- The labels a hook appends to the attempt with handle `id` when the hook is
a `RecordReceivedTrailingMetadata` on that attempt, run with stats enabled. -/
def trailerLabelsOf (d : Deps) (method_ target_ : String) (id : Nat) : Event → List Label
  | Event.RecordReceivedTrailingMetadata i true _ status _ _ =>
    if i = id then
      [⟨LabelKey.kClientMethod, method_⟩, ⟨LabelKey.kClientTarget, target_⟩,
       ⟨LabelKey.kClientStatus, d.StatusCodeToString status⟩]
    else []
  | _ => []

/-- The labels appended by all `RecordReceivedTrailingMetadata` hooks of a
sequence on the attempt with handle `id`, in order. -/
def trailerLabels (d : Deps) (method_ target_ : String) (id : Nat) : List Event → List Label
  | [] => []
  | e :: rest => trailerLabelsOf d method_ target_ id e ++ trailerLabels d method_ target_ id rest

/-- The state of the live attempts of a call after the hooks `evs`, for a call
tracer constructed with method `method_`, target `target_` and labels `L`:
handles are distinct and below `next_id`, no hook of `evs` is on a handle not
yet returned, the method, target and labels of the call are as constructed,
and every live attempt holds the message counts of the hooks on its handle and
(when stats were enabled throughout) the labels appended for it so far. -/
def AttemptsInv (d : Deps) (method_ target_ : String) (L : List Label) (evs : List Event)
    (s : System) : Prop :=
  (∀ p ∈ s.attempts, p.1 < s.next_id) ∧
  (s.attempts.map Prod.fst).Nodup ∧
  (s.call.method_ = method_ ∧ s.call.target_ = target_ ∧ s.call.context_.labels = L) ∧
  (∀ id, s.next_id ≤ id →
    countSendMessages id evs = 0 ∧ countReceivedMessages id evs = 0 ∧
    trailerLabels d method_ target_ id evs = []) ∧
  (∀ id a, findAttempt id s.attempts = some a →
    a.sent_message_count_ = countSendMessages id evs % 2 ^ 64 ∧
    a.recv_message_count_ = countReceivedMessages id evs % 2 ^ 64 ∧
    (statsThroughout true evs →
      a.context_.labels =
        L ++ [⟨LabelKey.kClientMethod, method_⟩, ⟨LabelKey.kClientTarget, target_⟩] ++
          trailerLabels d method_ target_ id evs))

/-- The metrics `RecordEnd` emits for an attempt that is constructed, receives
trailing metadata once and is ended, with stats enabled in all three hooks. -/
def endMetricsAfterOneTrailer (d : Deps) (parent : PythonOpenCensusCallTracer)
    (start_now now1 now2 : Int) (status0 status : StatusCode) (attempt_num : Nat)
    (is_transparent_retry : Bool) (md : Option MetadataBatch)
    (ts : Option TransportStreamStats) : List Metric :=
  (PythonOpenCensusCallAttemptTracer.RecordEnd d true now2 parent
    (PythonOpenCensusCallAttemptTracer.RecordReceivedTrailingMetadata d true now1 parent
      (PythonOpenCensusCallAttemptTracer.create true start_now status0 parent attempt_num
        is_transparent_retry).1 status md ts).1).2.2.metrics

/-- Number of labels of a list that carry the method key. -/
def countMethodKey (ls : List Label) : Nat :=
  (ls.filter fun l => l.key = LabelKey.kClientMethod).length

/-! ## StreamingPingPongArgs (bm_fullstack_streaming_ping_pong.cc) -/

/-- The constant `kMaxMessageSize`: 8 MiB when the binary is built under one
of the sanitizers (`BuiltUnderMsan() || BuiltUnderTsan() || BuiltUnderUbsan()`,
not among the sources, an argument here), 128 MiB otherwise. -/
def kMaxMessageSize (built_under_sanitizer : Bool) : Int :=
  if built_under_sanitizer then 8 * 1024 * 1024 else 128 * 1024 * 1024

/-- The result of an arithmetic operation on `int` (32-bit two's complement):
`none` when the mathematical result is not representable (signed overflow). -/
def checkedInt (v : Int) : Option Int :=
  if -(2 : Int) ^ 31 ≤ v ∧ v < (2 : Int) ^ 31 then some v else none

/-- The iteration expression `msg_size == 0 ? msg_size++ : msg_size *= 8` of
the loop: the next value of `msg_size`. -/
def nextMsgSize (msg_size : Int) : Option Int :=
  if msg_size = 0 then checkedInt (msg_size + 1) else checkedInt (msg_size * 8)

/-- How a run of `StreamingPingPongArgs` ends: it returns after registering
the given argument pairs, or an `int` operation overflows, or the model runs
out of fuel; the pairs registered so far are kept in each case. -/
inductive ArgsOutcome
  | returned (args : List (Int × Int))
  | overflow (args : List (Int × Int))
  | outOfFuel (args : List (Int × Int))
  deriving DecidableEq, Repr

/-- The `for` loop of `StreamingPingPongArgs` from the test of its condition
on, with `fuel` bounding the number of tests of the condition. -/
def pingPongLoop (max_size : Int) : Nat → Int → List (Int × Int) → ArgsOutcome
  | 0, _, args => ArgsOutcome.outOfFuel args
  | fuel + 1, msg_size, args =>
    if msg_size ≤ max_size then
      match nextMsgSize msg_size with
      | some next => pingPongLoop max_size fuel next (args ++ [(msg_size, 1), (msg_size, 2)])
      | none => ArgsOutcome.overflow (args ++ [(msg_size, 1), (msg_size, 2)])
    else ArgsOutcome.returned args

/-- The function `StreamingPingPongArgs`: the pairs passed to `b->Args`, in
order. -/
def StreamingPingPongArgs (max_size : Int) (fuel : Nat) : ArgsOutcome :=
  pingPongLoop max_size fuel 0 [(0, 0)]

/-- The message sizes as the comment and the loop header describe them: 0,
then every power of 8 that is at most `max_size`, in increasing order (an
`int` holds no power of 8 beyond `8 ^ 10`). -/
def smallStreamSizes (max_size : Int) : List Int :=
  0 :: (((List.range 11).map fun k => (8 : Int) ^ k).filter fun v => v ≤ max_size)

/-- The argument pairs as described: `(0, 0)` first, then `(size, 1)` and
`(size, 2)` for each message size. -/
def smallStreamArgs (max_size : Int) : List (Int × Int) :=
  (0, 0) :: ((smallStreamSizes max_size).map fun v => [(v, 1), (v, 2)]).flatten

/-! ## Lemmas on single hooks -/

theorem run_nil (d : Deps) (s : System) : run d s [] = some s := rfl

theorem run_cons (d : Deps) (s : System) (e : Event) (rest : List Event) :
    run d s (e :: rest) = (step d s e).bind fun s1 => run d s1 rest := rfl

theorem run_cons_some {d : Deps} {s s' : System} {e : Event} {rest : List Event}
    (h : run d s (e :: rest) = some s') :
    ∃ s1, step d s e = some s1 ∧ run d s1 rest = some s' := by
  rw [run_cons] at h
  cases h1 : step d s e with
  | none => rw [h1] at h; simp at h
  | some s1 => rw [h1] at h; exact ⟨s1, rfl, by simpa using h⟩

theorem incU64_lt (x : Nat) : incU64 x < 2 ^ 64 := by
  unfold incU64; omega

theorem decU64_lt (x : Nat) : decU64 x < 2 ^ 64 := by
  unfold decU64; omega

/-- How one hook moves the two retry counters of the call tracer. -/
theorem step_counters {d : Deps} {s s' : System} {e : Event} (h : step d s e = some s') :
    s'.call.retries_ % 2 ^ 64 = (s.call.retries_ + countRetries [e]) % 2 ^ 64 ∧
    s'.call.transparent_retries_ % 2 ^ 64 =
      (s.call.transparent_retries_ + countTransparentRetries [e]) % 2 ^ 64 ∧
    (s.call.retries_ < 2 ^ 64 → s'.call.retries_ < 2 ^ 64) ∧
    (s.call.transparent_retries_ < 2 ^ 64 → s'.call.transparent_retries_ < 2 ^ 64) := by
  cases e with
  | StartNewAttempt stats now start_now status0 tr =>
    cases tr <;>
    simp [step, PythonOpenCensusCallTracer.StartNewAttempt, countRetries,
      countTransparentRetries, incU64] at h ⊢ <;> subst h <;> simp <;> omega
  | RecordEnd id stats now =>
    simp [step, Option.map_eq_some'] at h
    obtain ⟨a, -, rfl⟩ := h
    cases stats <;>
    simp [PythonOpenCensusCallAttemptTracer.RecordEnd, countRetries, countTransparentRetries]
    all_goals split <;> simp
  | CallRecordAnnotation _ | CallRecordAnnotationStructured _ =>
    simp [step, PythonOpenCensusCallTracer.RecordAnnotation,
      PythonOpenCensusCallTracer.RecordAnnotationStructured] at h
    subst h
    simp [countRetries, countTransparentRetries]
    repeat' split
    all_goals simp
  | _ =>
    simp [step, Option.map_eq_some'] at h
    obtain ⟨a, -, rfl⟩ := h
    simp [countRetries, countTransparentRetries]

/-- How a sequence of hooks moves the two retry counters of the call tracer. -/
theorem run_counters {d : Deps} (evs : List Event) :
    ∀ {s s' : System}, run d s evs = some s' →
      s.call.retries_ < 2 ^ 64 → s.call.transparent_retries_ < 2 ^ 64 →
      s'.call.retries_ = (s.call.retries_ + countRetries evs) % 2 ^ 64 ∧
      s'.call.transparent_retries_ =
        (s.call.transparent_retries_ + countTransparentRetries evs) % 2 ^ 64 := by
  induction evs with
  | nil =>
    intro s s' h hr ht
    simp [run] at h
    subst h
    simp [countRetries, countTransparentRetries]
    omega
  | cons e rest ih =>
    intro s s' h hr ht
    obtain ⟨s1, h1, h2⟩ := run_cons_some h
    obtain ⟨c1, c2, c3, c4⟩ := step_counters h1
    obtain ⟨i1, i2⟩ := ih h2 (c3 hr) (c4 ht)
    have e1 : countRetries (e :: rest) = countRetries [e] + countRetries rest := by
      cases e with
      | StartNewAttempt _ _ _ _ b => cases b <;> simp [countRetries]; omega
      | _ => simp [countRetries]
    have e2 : countTransparentRetries (e :: rest) =
        countTransparentRetries [e] + countTransparentRetries rest := by
      cases e with
      | StartNewAttempt _ _ _ _ b => cases b <;> simp [countTransparentRetries]; omega
      | _ => simp [countTransparentRetries]
    have b1 := c3 hr
    have b2 := c4 ht
    rw [i1, i2, e1, e2]
    constructor <;> omega

/-- What the destructor emits when stats are enabled. -/
theorem destructor_metrics (t : PythonOpenCensusCallTracer) :
    (t.destructor true).2.metrics =
      [ ⟨MetricsName.kRpcClientRetriesPerCallMeasureName, MetricValue.int (decU64 t.retries_),
          t.registered_method_, t.context_.labels ++ [⟨LabelKey.kClientMethod, t.method_⟩]⟩,
        ⟨MetricsName.kRpcClientTransparentRetriesPerCallMeasureName,
          MetricValue.int t.transparent_retries_, t.registered_method_,
          t.context_.labels ++ [⟨LabelKey.kClientMethod, t.method_⟩]⟩,
        ⟨MetricsName.kRpcClientRetryDelayPerCallMeasureName, MetricValue.seconds t.retry_delay_,
          t.registered_method_, t.context_.labels ++ [⟨LabelKey.kClientMethod, t.method_⟩]⟩ ] := by
  simp [PythonOpenCensusCallTracer.destructor]

/-- C1. For every lifecycle of a freshly constructed call tracer in which
`StartNewAttempt` is called `R` times with `is_transparent_retry = false` and
`T` times with `is_transparent_retry = true` (and any other hooks), a
destructor that runs with stats enabled emits the retries-per-call metric
exactly once, with the value `R - 1` (the 64-bit pattern of `retries_ - 1`,
which reads `R - 1` as a signed integer also when `R = 0`), and the
transparent-retries-per-call metric exactly once, with the value `T`. The
bounds on `R` and `T` are the ranges of the 64-bit counters. -/
theorem C1_retries_per_call (d : Deps) (method_ target_ trace_id parent_span_id : String)
    (tracing_enabled registered_method sampled : Bool) (labels : List Label)
    (evs : List Event) (s : System)
    (hrun : run d (System.start (PythonOpenCensusCallTracer.create method_ target_ trace_id
      parent_span_id tracing_enabled registered_method sampled labels)) evs = some s)
    (hR : countRetries evs ≤ 2 ^ 63) (hT : countTransparentRetries evs < 2 ^ 64) :
    ∃ v : Nat,
      valuesOf MetricsName.kRpcClientRetriesPerCallMeasureName
        (s.call.destructor true).2.metrics = [MetricValue.int v] ∧
      asInt64 v = (countRetries evs : Int) - 1 ∧
      (1 ≤ countRetries evs → v = countRetries evs - 1) ∧
      valuesOf MetricsName.kRpcClientTransparentRetriesPerCallMeasureName
        (s.call.destructor true).2.metrics =
          [MetricValue.int (countTransparentRetries evs)] := by
  obtain ⟨h1, h2⟩ := run_counters evs hrun
    (by simp [System.start, PythonOpenCensusCallTracer.create])
    (by simp [System.start, PythonOpenCensusCallTracer.create])
  simp only [System.start, PythonOpenCensusCallTracer.create, Nat.zero_add] at h1 h2
  refine ⟨decU64 s.call.retries_, ?_, ?_, ?_, ?_⟩
  · simp [destructor_metrics, valuesOf]
  · rw [h1]; unfold asInt64 decU64; split <;> omega
  · intro h; rw [h1]; unfold decU64; omega
  · rw [destructor_metrics, h2, Nat.mod_eq_of_lt hT]
    simp [valuesOf]

/-- Witness of C1 on the sample lifecycle: three non-transparent starts and
one transparent start. -/
theorem C1_retries_per_call_witness :
    ∃ s : System, run sampleDeps (System.start sampleCall) lifecycleB = some s ∧
      countRetries lifecycleB = 3 ∧ countTransparentRetries lifecycleB = 1 ∧
      ∃ v : Nat,
        valuesOf MetricsName.kRpcClientRetriesPerCallMeasureName
          (s.call.destructor true).2.metrics = [MetricValue.int v] ∧
        asInt64 v = (countRetries lifecycleB : Int) - 1 ∧
        (1 ≤ countRetries lifecycleB → v = countRetries lifecycleB - 1) ∧
        valuesOf MetricsName.kRpcClientTransparentRetriesPerCallMeasureName
          (s.call.destructor true).2.metrics =
            [MetricValue.int (countTransparentRetries lifecycleB)] :=
  ⟨_, rfl, rfl, rfl,
    C1_retries_per_call sampleDeps "pkg.Svc/Do" "dns:///srv" "t1" "p1" true true true []
      lifecycleB _ rfl (by decide) (by decide)⟩

theorem length_replaceAttempt (id : Nat) (b : PythonOpenCensusCallAttemptTracer)
    (l : List (Nat × PythonOpenCensusCallAttemptTracer)) :
    (replaceAttempt id b l).length = l.length := by
  induction l with
  | nil => rfl
  | cons p rest ih =>
    obtain ⟨i, a⟩ := p
    by_cases h : i = id <;> simp [replaceAttempt, h, ih]

theorem length_removeAttempt {id : Nat} {a : PythonOpenCensusCallAttemptTracer}
    {l : List (Nat × PythonOpenCensusCallAttemptTracer)} (h : findAttempt id l = some a) :
    (removeAttempt id l).length + 1 = l.length := by
  induction l with
  | nil => simp [findAttempt] at h
  | cons p rest ih =>
    obtain ⟨i, x⟩ := p
    by_cases hi : i = id
    · simp [removeAttempt, hi]
    · simp [findAttempt, hi] at h
      simp [removeAttempt, hi, ih h]

theorem run_append {d : Deps} (pre suf : List Event) :
    ∀ s : System, run d s (pre ++ suf) = (run d s pre).bind fun s1 => run d s1 suf := by
  induction pre with
  | nil => intro s; simp [run]
  | cons e rest ih =>
    intro s
    simp only [List.cons_append, run_cons]
    cases step d s e with
    | none => simp
    | some s1 => simp [ih]

theorem statsAtEveryEnd_append (pre suf : List Event) :
    statsAtEveryEnd (pre ++ suf) ↔ statsAtEveryEnd pre ∧ statsAtEveryEnd suf := by
  induction pre with
  | nil => simp [statsAtEveryEnd]
  | cons e rest ih =>
    cases e <;> simp [statsAtEveryEnd, ih, and_assoc]

/-- How one hook moves the active-attempt count, against the number of live
attempts, when a `RecordEnd` runs with stats enabled. -/
theorem step_active {d : Deps} {s s' : System} {e : Event} (h : step d s e = some s')
    (he : statsAtEveryEnd [e])
    (hinv : s.call.num_active_rpcs_ = s.attempts.length % 2 ^ 64) :
    s'.call.num_active_rpcs_ = s'.attempts.length % 2 ^ 64 := by
  cases e with
  | StartNewAttempt stats now start_now status0 tr =>
    simp [step, PythonOpenCensusCallTracer.StartNewAttempt] at h
    subst h
    simp [incU64, hinv]
  | RecordEnd id stats now =>
    simp [statsAtEveryEnd] at he
    subst he
    simp [step, Option.map_eq_some'] at h
    obtain ⟨a, ha, rfl⟩ := h
    have hl := length_removeAttempt ha
    simp only [PythonOpenCensusCallAttemptTracer.RecordEnd, if_true]
    split <;> simp [decU64, hinv] <;> omega
  | CallRecordAnnotation _ | CallRecordAnnotationStructured _ =>
    simp [step, PythonOpenCensusCallTracer.RecordAnnotation,
      PythonOpenCensusCallTracer.RecordAnnotationStructured] at h
    subst h
    repeat' split
    all_goals simpa using hinv
  | RecordSendInitialMetadata _ _ _ =>
    simp [step, Option.map_eq_some'] at h
    obtain ⟨a, -, rfl⟩ := h
    simpa using hinv
  | _ =>
    simp [step, Option.map_eq_some'] at h
    obtain ⟨a, -, rfl⟩ := h
    simpa [length_replaceAttempt] using hinv

/-- The active-attempt count equals the number of live attempts (modulo
`2 ^ 64`) after any sequence of hooks whose `RecordEnd` hooks run with stats
enabled. -/
theorem run_active {d : Deps} (evs : List Event) :
    ∀ {s s' : System}, run d s evs = some s' → statsAtEveryEnd evs →
      s.call.num_active_rpcs_ = s.attempts.length % 2 ^ 64 →
      s'.call.num_active_rpcs_ = s'.attempts.length % 2 ^ 64 := by
  induction evs with
  | nil =>
    intro s s' h _ hinv
    simp [run] at h
    subst h
    exact hinv
  | cons e rest ih =>
    intro s s' h he hinv
    obtain ⟨s1, h1, h2⟩ := run_cons_some h
    have hsplit := (statsAtEveryEnd_append [e] rest).1 he
    exact ih h2 hsplit.2 (step_active h1 hsplit.1 hinv)

/-- C2, as the code has it. For every sequence of hooks on a freshly
constructed call tracer in which every hook is on a live attempt (so every
attempt is ended at most once) and every `RecordEnd` runs with stats enabled:
after every event the active-attempt count is non-negative and equals the
number of attempts started and not yet ended (modulo `2 ^ 64`), and it is 0
once all started attempts have ended. -/
theorem C2_active_count (d : Deps) (t : PythonOpenCensusCallTracer) (evs : List Event)
    (s : System) (ht : t.num_active_rpcs_ = 0)
    (hrun : run d (System.start t) evs = some s) (hstats : statsAtEveryEnd evs) :
    (∀ k : Nat, ∃ sk : System, run d (System.start t) (evs.take k) = some sk ∧
      (0 : Int) ≤ sk.call.num_active_rpcs_ ∧
      sk.call.num_active_rpcs_ = sk.attempts.length % 2 ^ 64) ∧
    (s.attempts = [] → s.call.num_active_rpcs_ = 0) := by
  have h0 : (System.start t).call.num_active_rpcs_ = (System.start t).attempts.length % 2 ^ 64 := by
    simp [System.start, ht]
  constructor
  · intro k
    have hsplit : evs = evs.take k ++ evs.drop k := (List.take_append_drop k evs).symm
    rw [hsplit, run_append] at hrun
    rw [hsplit, statsAtEveryEnd_append] at hstats
    cases hk : run d (System.start t) (evs.take k) with
    | none => rw [hk] at hrun; simp at hrun
    | some sk =>
      exact ⟨sk, rfl, Int.natCast_nonneg _, run_active _ hk hstats.1 h0⟩
  · intro hnil
    have := run_active evs hrun hstats h0
    simpa [hnil] using this

/-- Witness of C2 on the sample lifecycle. -/
theorem C2_active_count_witness :
    ∃ s : System, run sampleDeps (System.start sampleCall) lifecycleB = some s ∧
      (∀ k : Nat, ∃ sk : System,
        run sampleDeps (System.start sampleCall) (lifecycleB.take k) = some sk ∧
        (0 : Int) ≤ sk.call.num_active_rpcs_ ∧
        sk.call.num_active_rpcs_ = sk.attempts.length % 2 ^ 64) ∧
      (s.attempts = [] → s.call.num_active_rpcs_ = 0) :=
  ⟨_, rfl, C2_active_count sampleDeps sampleCall lifecycleB _ rfl rfl
    (by simp [lifecycleB, statsAtEveryEnd])⟩

/-- Counterexample to C2 as stated: with stats collection disabled, one
attempt is started and ended, no attempt is live any more, and the
active-attempt count is 1. -/
theorem C2_counterexample :
    (run sampleDeps (System.start sampleCall) lifecycleNoStats).map
      (fun s => (s.attempts.length, s.call.num_active_rpcs_)) = some (0, 1) := by
  decide

/-- The trailing-metadata hook never assigns the member `status_code_`. -/
theorem RecordReceivedTrailingMetadata_status_code (d : Deps) (stats : Bool) (now : Int)
    (parent : PythonOpenCensusCallTracer) (a : PythonOpenCensusCallAttemptTracer)
    (status : StatusCode) (md : Option MetadataBatch) (ts : Option TransportStreamStats) :
    (a.RecordReceivedTrailingMetadata d stats now parent status md ts).1.status_code_ =
      a.status_code_ := by
  cases stats <;> simp [PythonOpenCensusCallAttemptTracer.RecordReceivedTrailingMetadata]

/-- The status `RecordEnd` uses after a trailing-metadata hook is the value
the member `status_code_` had before that hook, whatever status the hook
received: the last label is the name of that earlier value, and with tracing
enabled the span status is set exactly when that earlier value is not `kOk`. -/
theorem RecordEnd_after_trailers (d : Deps) (now now2 : Int)
    (parent : PythonOpenCensusCallTracer) (a : PythonOpenCensusCallAttemptTracer)
    (status : StatusCode) (md : Option MetadataBatch) (ts : Option TransportStreamStats)
    (htr : parent.tracing_enabled_ = true) :
    let a1 := (a.RecordReceivedTrailingMetadata d true now parent status md ts).1
    let r := a1.RecordEnd d true now2 parent
    r.2.1.context_.labels.getLast? =
        some ⟨LabelKey.kClientStatus, d.StatusCodeToString a.status_code_⟩ ∧
      r.2.1.context_.span.status =
        (if a.status_code_ ≠ StatusCode.kOk then some (d.StatusCodeToString a.status_code_)
         else a.context_.span.status) := by
  simp only [PythonOpenCensusCallAttemptTracer.RecordReceivedTrailingMetadata,
    PythonOpenCensusCallAttemptTracer.RecordEnd, htr]
  by_cases h : a.status_code_ = StatusCode.kOk <;>
    simp [h, PythonCensusContext.EndSpan, PythonCensusContext.SetStatus, List.getLast?_append]

/-- C3, the code at the failing input. An attempt whose member `status_code_`
holds `kOk` receives trailing metadata with status `kUnavailable` and is
ended, stats and tracing enabled: the trailing-metadata hook labels its
metrics with `UNAVAILABLE`, but the status label `RecordEnd` appends is `OK`,
and the exported attempt span has no error status. -/
theorem C3_record_end_status_at_failing_input :
    (run sampleDeps (System.start sampleCall) lifecycleUnavailable).map
      (fun s =>
        (s.released.map fun a => (a.context_.labels.map Label.value, a.context_.span.status),
         s.spans.map Span.status)) =
      some ([(["pkg.Svc/Do", "dns:///srv", "pkg.Svc/Do", "dns:///srv", "UNAVAILABLE",
                "pkg.Svc/Do", "OK"], none)], [none]) := by
  decide

theorem countRetries_cons (e : Event) (rest : List Event) :
    countRetries (e :: rest) = countRetries [e] + countRetries rest := by
  cases e with
  | StartNewAttempt _ _ _ _ b => cases b <;> simp [countRetries]; omega
  | _ => simp [countRetries]

theorem countTransparentRetries_cons (e : Event) (rest : List Event) :
    countTransparentRetries (e :: rest) =
      countTransparentRetries [e] + countTransparentRetries rest := by
  cases e with
  | StartNewAttempt _ _ _ _ b => cases b <;> simp [countTransparentRetries]; omega
  | _ => simp [countTransparentRetries]

theorem countTrailers_cons (e : Event) (rest : List Event) :
    countTrailers (e :: rest) = countTrailers [e] + countTrailers rest := by
  cases e <;> simp [countTrailers]; omega

theorem statsThroughout_cons (b : Bool) (e : Event) (rest : List Event) :
    statsThroughout b (e :: rest) ↔ statsThroughout b [e] ∧ statsThroughout b rest := by
  simp [statsThroughout]

theorem valuesOf_append (n : MetricsName) (xs ys : List Metric) :
    valuesOf n (xs ++ ys) = valuesOf n xs ++ valuesOf n ys := by
  simp [valuesOf]

/-- How one hook, run with stats enabled, moves the started counters, the
completed counters and the child-span count of the call span. -/
theorem step_started_completed {d : Deps} {s s' : System} {e : Event}
    (h : step d s e = some s') (he : statsThroughout true [e]) :
    valuesOf MetricsName.kRpcClientStartedRpcsMeasureName s'.metrics =
        valuesOf MetricsName.kRpcClientStartedRpcsMeasureName s.metrics ++
          List.replicate (countRetries [e] + countTransparentRetries [e]) (MetricValue.int 1) ∧
      valuesOf MetricsName.kRpcClientCompletedRpcMeasureName s'.metrics =
        valuesOf MetricsName.kRpcClientCompletedRpcMeasureName s.metrics ++
          List.replicate (countTrailers [e]) (MetricValue.int 1) ∧
      s'.call.context_.span.child_span_count =
        s.call.context_.span.child_span_count +
          (countRetries [e] + countTransparentRetries [e]) := by
  cases e with
  | StartNewAttempt stats now start_now status0 tr =>
    have hs : stats = true := by simpa [statsThroughout, Event.statsRead] using he
    subst hs
    simp [step, PythonOpenCensusCallTracer.StartNewAttempt,
      PythonOpenCensusCallAttemptTracer.create] at h
    subst h
    cases tr <;>
    simp [valuesOf, countRetries, countTransparentRetries, countTrailers,
      PythonCensusContext.IncreaseChildSpanCount]
  | RecordReceivedTrailingMetadata id stats now status md ts =>
    have hs : stats = true := by simpa [statsThroughout, Event.statsRead] using he
    subst hs
    simp [step, Option.map_eq_some'] at h
    obtain ⟨a, -, rfl⟩ := h
    simp [valuesOf, countRetries, countTransparentRetries, countTrailers,
      PythonOpenCensusCallAttemptTracer.RecordReceivedTrailingMetadata]
  | RecordEnd id stats now =>
    have hs : stats = true := by simpa [statsThroughout, Event.statsRead] using he
    subst hs
    simp [step, Option.map_eq_some'] at h
    obtain ⟨a, -, rfl⟩ := h
    simp only [PythonOpenCensusCallAttemptTracer.RecordEnd, if_true]
    split <;> simp [valuesOf, countRetries, countTransparentRetries, countTrailers]
  | CallRecordAnnotation _ | CallRecordAnnotationStructured _ =>
    simp [step, PythonOpenCensusCallTracer.RecordAnnotation,
      PythonOpenCensusCallTracer.RecordAnnotationStructured] at h
    subst h
    simp only [countRetries, countTransparentRetries, countTrailers]
    repeat' split
    all_goals simp [PythonCensusContext.AddSpanAnnotation]
  | _ =>
    simp [step, Option.map_eq_some'] at h
    obtain ⟨a, -, rfl⟩ := h
    simp [countRetries, countTransparentRetries, countTrailers]

/-- How a sequence of hooks, run with stats enabled, moves the started
counters, the completed counters and the child-span count of the call span. -/
theorem run_started_completed {d : Deps} (evs : List Event) :
    ∀ {s s' : System}, run d s evs = some s' → statsThroughout true evs →
      valuesOf MetricsName.kRpcClientStartedRpcsMeasureName s'.metrics =
          valuesOf MetricsName.kRpcClientStartedRpcsMeasureName s.metrics ++
            List.replicate (countRetries evs + countTransparentRetries evs)
              (MetricValue.int 1) ∧
        valuesOf MetricsName.kRpcClientCompletedRpcMeasureName s'.metrics =
          valuesOf MetricsName.kRpcClientCompletedRpcMeasureName s.metrics ++
            List.replicate (countTrailers evs) (MetricValue.int 1) ∧
        s'.call.context_.span.child_span_count =
          s.call.context_.span.child_span_count +
            (countRetries evs + countTransparentRetries evs) := by
  induction evs with
  | nil =>
    intro s s' h _
    simp [run] at h
    subst h
    simp [countRetries, countTransparentRetries, countTrailers]
  | cons e rest ih =>
    intro s s' h he
    obtain ⟨s1, h1, h2⟩ := run_cons_some h
    rw [statsThroughout_cons] at he
    obtain ⟨a1, a2, a3⟩ := step_started_completed h1 he.1
    obtain ⟨b1, b2, b3⟩ := ih h2 he.2
    rw [countRetries_cons e rest, countTransparentRetries_cons e rest, countTrailers_cons e rest]
    refine ⟨?_, ?_, ?_⟩
    · rw [b1, a1, List.append_assoc, ← List.replicate_add]
      congr 2; omega
    · rw [b2, a2, List.append_assoc, ← List.replicate_add]
    · rw [b3, a3]; omega

/-- No hook of the lifecycle emits one of the call-level metrics. -/
theorem step_call_metrics {d : Deps} {s s' : System} {e : Event} (h : step d s e = some s') :
    valuesOf MetricsName.kRpcClientRetriesPerCallMeasureName s'.metrics =
        valuesOf MetricsName.kRpcClientRetriesPerCallMeasureName s.metrics ∧
      valuesOf MetricsName.kRpcClientTransparentRetriesPerCallMeasureName s'.metrics =
        valuesOf MetricsName.kRpcClientTransparentRetriesPerCallMeasureName s.metrics ∧
      valuesOf MetricsName.kRpcClientRetryDelayPerCallMeasureName s'.metrics =
        valuesOf MetricsName.kRpcClientRetryDelayPerCallMeasureName s.metrics := by
  cases e with
  | StartNewAttempt stats now start_now status0 tr =>
    simp [step, PythonOpenCensusCallTracer.StartNewAttempt,
      PythonOpenCensusCallAttemptTracer.create] at h
    subst h
    cases stats <;> simp [valuesOf]
  | RecordReceivedTrailingMetadata id stats now status md ts =>
    simp [step, Option.map_eq_some'] at h
    obtain ⟨a, -, rfl⟩ := h
    cases stats <;>
      simp [valuesOf, PythonOpenCensusCallAttemptTracer.RecordReceivedTrailingMetadata]
  | RecordEnd id stats now =>
    simp [step, Option.map_eq_some'] at h
    obtain ⟨a, -, rfl⟩ := h
    cases stats <;> simp [valuesOf, PythonOpenCensusCallAttemptTracer.RecordEnd]
  | CallRecordAnnotation _ | CallRecordAnnotationStructured _ =>
    simp [step] at h
    subst h
    simp
  | _ =>
    simp [step, Option.map_eq_some'] at h
    obtain ⟨a, -, rfl⟩ := h
    simp

/-- No sequence of hooks emits one of the call-level metrics. -/
theorem run_call_metrics {d : Deps} (evs : List Event) :
    ∀ {s s' : System}, run d s evs = some s' →
      valuesOf MetricsName.kRpcClientRetriesPerCallMeasureName s'.metrics =
          valuesOf MetricsName.kRpcClientRetriesPerCallMeasureName s.metrics ∧
        valuesOf MetricsName.kRpcClientTransparentRetriesPerCallMeasureName s'.metrics =
          valuesOf MetricsName.kRpcClientTransparentRetriesPerCallMeasureName s.metrics ∧
        valuesOf MetricsName.kRpcClientRetryDelayPerCallMeasureName s'.metrics =
          valuesOf MetricsName.kRpcClientRetryDelayPerCallMeasureName s.metrics := by
  induction evs with
  | nil =>
    intro s s' h
    simp [run] at h
    subst h
    simp
  | cons e rest ih =>
    intro s s' h
    obtain ⟨s1, h1, h2⟩ := run_cons_some h
    obtain ⟨a1, a2, a3⟩ := step_call_metrics h1
    obtain ⟨b1, b2, b3⟩ := ih h2
    exact ⟨b1.trans a1, b2.trans a2, b3.trans a3⟩

/-- What the whole lifecycle has emitted once the destructor ran with stats
enabled, in terms of what the hooks emitted. -/
theorem finish_metrics (s : System) :
    (finish true s).metrics = s.metrics ++ (s.call.destructor true).2.metrics ∧
      (finish true s).call.context_.span.child_span_count =
        s.call.context_.span.child_span_count := by
  simp only [finish, PythonOpenCensusCallTracer.destructor, if_true]
  refine ⟨trivial, ?_⟩
  split <;> simp [PythonCensusContext.EndSpan]

/-- C4, as the code has it. A freshly constructed call tracer goes through a
lifecycle with stats enabled throughout in which `StartNewAttempt` is called
three times with `is_transparent_retry = false` (two retries after the first
attempt) and once with `is_transparent_retry = true`, and in which every one
of these four attempts receives trailing metadata once. Then the whole
lifecycle, destructor included, emits retries-per-call once with value 2,
transparent-retries-per-call once with value 1, exactly four started counters
and exactly four completed counters, and the child-span count of the call span
is 4. -/
theorem C4_scenario_B (d : Deps) (method_ target_ trace_id parent_span_id : String)
    (tracing_enabled registered_method sampled : Bool) (labels : List Label)
    (evs : List Event) (s : System)
    (hrun : run d (System.start (PythonOpenCensusCallTracer.create method_ target_ trace_id
      parent_span_id tracing_enabled registered_method sampled labels)) evs = some s)
    (hstats : statsThroughout true evs)
    (hR : countRetries evs = 3) (hT : countTransparentRetries evs = 1)
    (hC : countTrailers evs = 4) :
    valuesOf MetricsName.kRpcClientRetriesPerCallMeasureName (finish true s).metrics =
        [MetricValue.int 2] ∧
      valuesOf MetricsName.kRpcClientTransparentRetriesPerCallMeasureName
        (finish true s).metrics = [MetricValue.int 1] ∧
      valuesOf MetricsName.kRpcClientStartedRpcsMeasureName (finish true s).metrics =
        List.replicate 4 (MetricValue.int 1) ∧
      valuesOf MetricsName.kRpcClientCompletedRpcMeasureName (finish true s).metrics =
        List.replicate 4 (MetricValue.int 1) ∧
      (finish true s).call.context_.span.child_span_count = 4 := by
  obtain ⟨c1, c2⟩ := run_counters evs hrun
    (by simp [System.start, PythonOpenCensusCallTracer.create])
    (by simp [System.start, PythonOpenCensusCallTracer.create])
  obtain ⟨m1, m2, m3⟩ := run_started_completed evs hrun hstats
  obtain ⟨n1, n2, -⟩ := run_call_metrics evs hrun
  obtain ⟨f1, f2⟩ := finish_metrics s
  simp only [System.start, PythonOpenCensusCallTracer.create, GenerateClientContext, hR, hT, hC,
    Nat.zero_add] at c1 c2 m1 m2 m3 n1 n2
  rw [f1, f2, destructor_metrics]
  simp only [valuesOf_append, n1, n2, m1, m2, m3, c1, c2]
  simp [valuesOf, decU64]

/-- Witness of C4 on the sample lifecycle. -/
theorem C4_scenario_B_witness :
    ∃ s : System, run sampleDeps (System.start sampleCall) lifecycleB = some s ∧
      valuesOf MetricsName.kRpcClientRetriesPerCallMeasureName (finish true s).metrics =
        [MetricValue.int 2] ∧
      valuesOf MetricsName.kRpcClientTransparentRetriesPerCallMeasureName
        (finish true s).metrics = [MetricValue.int 1] ∧
      valuesOf MetricsName.kRpcClientStartedRpcsMeasureName (finish true s).metrics =
        List.replicate 4 (MetricValue.int 1) ∧
      valuesOf MetricsName.kRpcClientCompletedRpcMeasureName (finish true s).metrics =
        List.replicate 4 (MetricValue.int 1) ∧
      (finish true s).call.context_.span.child_span_count = 4 :=
  ⟨_, rfl,
    C4_scenario_B sampleDeps "pkg.Svc/Do" "dns:///srv" "t1" "p1" true true true []
      lifecycleB _ rfl (by decide) rfl rfl rfl⟩

/-- Counterexample to C4 as stated. In the sample lifecycle with three
non-transparent starts and one transparent start, all four attempts completing
with stats and tracing enabled, retries-per-call is 2 and
transparent-retries-per-call is 1, but four started counters and four
completed counters are emitted and the child-span count of the call span is 4,
not 3. In the lifecycle with three attempts in total, one of them a
transparent retry, the three counts are 3 but retries-per-call is 1, not 2. -/
theorem C4_counterexample :
    (run sampleDeps (System.start sampleCall) lifecycleB).map
        (fun s =>
          (valuesOf MetricsName.kRpcClientRetriesPerCallMeasureName (finish true s).metrics,
           valuesOf MetricsName.kRpcClientTransparentRetriesPerCallMeasureName
             (finish true s).metrics,
           (valuesOf MetricsName.kRpcClientStartedRpcsMeasureName (finish true s).metrics).length,
           (valuesOf MetricsName.kRpcClientCompletedRpcMeasureName
             (finish true s).metrics).length,
           (finish true s).call.context_.span.child_span_count)) =
        some ([MetricValue.int 2], [MetricValue.int 1], 4, 4, 4) ∧
      (run sampleDeps (System.start sampleCall) lifecycleThreeStarts).map
        (fun s =>
          (valuesOf MetricsName.kRpcClientRetriesPerCallMeasureName (finish true s).metrics,
           valuesOf MetricsName.kRpcClientTransparentRetriesPerCallMeasureName
             (finish true s).metrics,
           (valuesOf MetricsName.kRpcClientStartedRpcsMeasureName (finish true s).metrics).length,
           (valuesOf MetricsName.kRpcClientCompletedRpcMeasureName
             (finish true s).metrics).length,
           (finish true s).call.context_.span.child_span_count)) =
        some ([MetricValue.int 1], [MetricValue.int 1], 3, 3, 3) := by
  constructor <;> decide

/-- One hook changes the cumulative retry delay only if it is a
`StartNewAttempt` that finds the active-attempt count at zero. -/
theorem step_retry_delay {d : Deps} {s s' : System} {e : Event} (h : step d s e = some s') :
    (s.call.num_active_rpcs_ ≠ 0 → s'.call.retry_delay_ = s.call.retry_delay_) ∧
      (s'.call.retry_delay_ ≠ s.call.retry_delay_ →
        ∃ stats now start_now status0 tr,
          e = Event.StartNewAttempt stats now start_now status0 tr) := by
  cases e with
  | StartNewAttempt stats now start_now status0 tr =>
    simp [step, PythonOpenCensusCallTracer.StartNewAttempt] at h
    subst h
    constructor
    · intro hn
      simp [hn]
    · intro _
      exact ⟨_, _, _, _, _, rfl⟩
  | RecordEnd id stats now =>
    simp [step, Option.map_eq_some'] at h
    obtain ⟨a, -, rfl⟩ := h
    cases stats <;> simp [PythonOpenCensusCallAttemptTracer.RecordEnd]
    all_goals split <;> simp
  | CallRecordAnnotation _ | CallRecordAnnotationStructured _ =>
    simp [step, PythonOpenCensusCallTracer.RecordAnnotation,
      PythonOpenCensusCallTracer.RecordAnnotationStructured] at h
    subst h
    repeat' split
    all_goals simp
  | _ =>
    simp [step, Option.map_eq_some'] at h
    obtain ⟨a, -, rfl⟩ := h
    simp

/-- As long as the 64-bit active-attempt count cannot wrap around, it is at
least the number of live attempts. -/
theorem run_live_le_active {d : Deps} (evs : List Event) :
    ∀ {s s' : System}, run d s evs = some s' →
      s.attempts.length ≤ s.call.num_active_rpcs_ →
      s.call.num_active_rpcs_ + (countRetries evs + countTransparentRetries evs) < 2 ^ 64 →
      s'.attempts.length ≤ s'.call.num_active_rpcs_ := by
  induction evs with
  | nil =>
    intro s s' h hinv _
    simp [run] at h
    subst h
    exact hinv
  | cons e rest ih =>
    intro s s' h hinv hb
    obtain ⟨s1, h1, h2⟩ := run_cons_some h
    rw [countRetries_cons e rest, countTransparentRetries_cons e rest] at hb
    have key : s1.attempts.length ≤ s1.call.num_active_rpcs_ ∧
        s1.call.num_active_rpcs_ ≤ s.call.num_active_rpcs_ +
          (countRetries [e] + countTransparentRetries [e]) := by
      cases e with
      | StartNewAttempt stats now start_now status0 tr =>
        simp [step, PythonOpenCensusCallTracer.StartNewAttempt] at h1
        subst h1
        cases tr <;> simp [incU64, countRetries, countTransparentRetries] at hb ⊢ <;> omega
      | RecordEnd id stats now =>
        simp [step, Option.map_eq_some'] at h1
        obtain ⟨a, ha, rfl⟩ := h1
        have hl := length_removeAttempt ha
        cases stats <;> simp only [PythonOpenCensusCallAttemptTracer.RecordEnd]
        · simp; omega
        · simp only [if_true]
          split <;> simp [decU64] <;> omega
      | CallRecordAnnotation _ | CallRecordAnnotationStructured _ =>
        simp [step, PythonOpenCensusCallTracer.RecordAnnotation,
          PythonOpenCensusCallTracer.RecordAnnotationStructured] at h1
        subst h1
        repeat' split
        all_goals simp [hinv]
      | RecordSendInitialMetadata _ _ _ =>
        simp [step, Option.map_eq_some'] at h1
        obtain ⟨a, -, rfl⟩ := h1
        simp [hinv]
      | _ =>
        simp [step, Option.map_eq_some'] at h1
        obtain ⟨a, -, rfl⟩ := h1
        simp [length_replaceAttempt, hinv]
    exact ih h2 key.1 (by omega)

/-- C5. In every state a freshly constructed call tracer reaches through a
sequence of hooks (with fewer than `2 ^ 64` attempts started), a hook executed
while at least one attempt is active, or while the active-attempt count is not
zero, leaves the cumulative retry delay unchanged; and a hook that changes the
cumulative retry delay is a `StartNewAttempt` executed with the
active-attempt count at zero and no attempt active. -/
theorem C5_retry_delay_frame (d : Deps) (method_ target_ trace_id parent_span_id : String)
    (tracing_enabled registered_method sampled : Bool) (labels : List Label)
    (evs : List Event) (s s' : System) (e : Event)
    (hrun : run d (System.start (PythonOpenCensusCallTracer.create method_ target_ trace_id
      parent_span_id tracing_enabled registered_method sampled labels)) evs = some s)
    (hbound : countRetries evs + countTransparentRetries evs < 2 ^ 64)
    (hstep : step d s e = some s') :
    (s.attempts ≠ [] ∨ s.call.num_active_rpcs_ ≠ 0 →
        s'.call.retry_delay_ = s.call.retry_delay_) ∧
      (s'.call.retry_delay_ ≠ s.call.retry_delay_ →
        (∃ stats now start_now status0 tr,
          e = Event.StartNewAttempt stats now start_now status0 tr) ∧
        s.call.num_active_rpcs_ = 0 ∧ s.attempts = []) := by
  have hlive : s.attempts.length ≤ s.call.num_active_rpcs_ :=
    run_live_le_active evs hrun (by simp [System.start])
      (by simpa [System.start, PythonOpenCensusCallTracer.create] using hbound)
  obtain ⟨k1, k2⟩ := step_retry_delay hstep
  have hact : s.attempts ≠ [] ∨ s.call.num_active_rpcs_ ≠ 0 → s.call.num_active_rpcs_ ≠ 0 := by
    rintro (h | h)
    · have : 0 < s.attempts.length := List.length_pos.2 h
      omega
    · exact h
  refine ⟨fun h => k1 (hact h), fun h => ⟨k2 h, ?_, ?_⟩⟩
  · by_contra hne
    exact h (k1 hne)
  · by_contra hne
    exact h (k1 (hact (Or.inl hne)))

/-- Witness of C5: after the first attempt of the sample lifecycle started
and sent a message, a second attempt is started while the first is active. -/
theorem C5_retry_delay_frame_witness :
    ∃ s s' : System,
      run sampleDeps (System.start sampleCall) (lifecycleB.take 3) = some s ∧
      step sampleDeps s (Event.StartNewAttempt true 15 16 StatusCode.kOk false) = some s' ∧
      (s.attempts ≠ [] ∨ s.call.num_active_rpcs_ ≠ 0 →
        s'.call.retry_delay_ = s.call.retry_delay_) ∧
      (s'.call.retry_delay_ ≠ s.call.retry_delay_ →
        (∃ stats now start_now status0 tr,
          Event.StartNewAttempt true 15 16 StatusCode.kOk false =
            Event.StartNewAttempt stats now start_now status0 tr) ∧
        s.call.num_active_rpcs_ = 0 ∧ s.attempts = []) :=
  ⟨_, _, rfl, rfl,
    C5_retry_delay_frame sampleDeps "pkg.Svc/Do" "dns:///srv" "t1" "p1" true true true []
      (lifecycleB.take 3) _ _ (Event.StartNewAttempt true 15 16 StatusCode.kOk false) rfl
      (by decide) rfl⟩

theorem mem_of_findAttempt {id : Nat} {a : PythonOpenCensusCallAttemptTracer}
    {l : List (Nat × PythonOpenCensusCallAttemptTracer)} (h : findAttempt id l = some a) :
    (id, a) ∈ l := by
  induction l with
  | nil => simp [findAttempt] at h
  | cons p rest ih =>
    obtain ⟨i, x⟩ := p
    by_cases hi : i = id
    · simp [findAttempt, hi] at h
      simp [hi, h]
    · simp [findAttempt, hi] at h
      simp [ih h]

theorem forall_replaceAttempt {A : PythonOpenCensusCallAttemptTracer → Prop} {id : Nat}
    {b : PythonOpenCensusCallAttemptTracer} {l : List (Nat × PythonOpenCensusCallAttemptTracer)}
    (hl : ∀ p ∈ l, A p.2) (hb : A b) : ∀ p ∈ replaceAttempt id b l, A p.2 := by
  induction l with
  | nil => simp [replaceAttempt]
  | cons q rest ih =>
    obtain ⟨i, x⟩ := q
    have hrest : ∀ p ∈ rest, A p.2 := fun p hp => hl p (List.mem_cons_of_mem _ hp)
    by_cases hi : i = id
    · intro p hp
      simp [replaceAttempt, hi] at hp
      rcases hp with rfl | hp
      · exact hb
      · exact hrest p hp
    · intro p hp
      simp [replaceAttempt, hi] at hp
      rcases hp with rfl | hp
      · exact hl _ (List.mem_cons_self _ _)
      · exact ih hrest p hp

theorem forall_removeAttempt {A : PythonOpenCensusCallAttemptTracer → Prop} {id : Nat}
    {l : List (Nat × PythonOpenCensusCallAttemptTracer)}
    (hl : ∀ p ∈ l, A p.2) : ∀ p ∈ removeAttempt id l, A p.2 := by
  induction l with
  | nil => simp [removeAttempt]
  | cons q rest ih =>
    obtain ⟨i, x⟩ := q
    have hrest : ∀ p ∈ rest, A p.2 := fun p hp => hl p (List.mem_cons_of_mem _ hp)
    by_cases hi : i = id
    · intro p hp
      simp [removeAttempt, hi] at hp
      exact hrest p hp
    · intro p hp
      simp [removeAttempt, hi] at hp
      rcases hp with rfl | hp
      · exact hl _ (List.mem_cons_self _ _)
      · exact ih hrest p hp

/-- A property of single states that every hook preserves, for the events
allowed by `Q`, holds after every sequence of allowed hooks. -/
theorem run_invariant {d : Deps} (P : System → Prop) (Q : Event → Prop)
    (hstep : ∀ s e s1, Q e → P s → step d s e = some s1 → P s1) (evs : List Event) :
    ∀ {s s' : System}, (∀ e ∈ evs, Q e) → run d s evs = some s' → P s → P s' := by
  induction evs with
  | nil =>
    intro s s' _ h hp
    simp [run] at h
    subst h
    exact hp
  | cons e rest ih =>
    intro s s' hq h hp
    obtain ⟨s1, h1, h2⟩ := run_cons_some h
    exact ih (fun x hx => hq x (List.mem_cons_of_mem _ hx)) h2
      (hstep s e s1 (hq e (List.mem_cons_self _ _)) hp h1)

/-- Every hook preserves the state of the spans. -/
theorem step_spanInv {d : Deps} {smp : Bool} {s s' : System} {e : Event}
    (h : step d s e = some s') (hinv : SpanInv smp s) : SpanInv smp s' := by
  obtain ⟨i1, i2, i3, i4, i5, i6⟩ := hinv
  cases e with
  | StartNewAttempt stats now start_now status0 tr =>
    simp [step, PythonOpenCensusCallTracer.StartNewAttempt] at h
    subst h
    refine ⟨by simpa using i1, by simpa [PythonCensusContext.IncreaseChildSpanCount] using i2,
      by simpa [PythonCensusContext.IncreaseChildSpanCount] using i3, ?_, by simpa using i5,
      by simpa using i6⟩
    intro p hp
    simp only [List.mem_append, List.mem_singleton] at hp
    rcases hp with hp | rfl
    · exact i4 p hp
    · cases stats <;>
      simp [PythonOpenCensusCallAttemptTracer.create,
        PythonOpenCensusCallTracer.CreateCensusContextForCallAttempt, PythonCensusContext.child,
        PythonCensusContext.AddSpanAttribute, PythonCensusContext.IncreaseChildSpanCount, i1, i3]
  | RecordEnd id stats now =>
    simp [step, Option.map_eq_some'] at h
    obtain ⟨a, ha, rfl⟩ := h
    have hm : a.context_.span.end_calls = 0 ∧ a.context_.span.sampled = smp :=
      i4 _ (mem_of_findAttempt ha)
    have hcall : (a.RecordEnd d stats now s.call).1.tracing_enabled_ = true ∧
        (a.RecordEnd d stats now s.call).1.context_ = s.call.context_ := by
      cases stats <;> simp [PythonOpenCensusCallAttemptTracer.RecordEnd, i1]
      split <;> simp [i1]
    have hrel : (a.RecordEnd d stats now s.call).2.1.context_.span.end_calls = 1 ∧
        (a.RecordEnd d stats now s.call).2.1.context_.span.sampled = smp ∧
        (a.RecordEnd d stats now s.call).2.2.spans =
          [(a.RecordEnd d stats now s.call).2.1.context_.span].filter fun sp => sp.sampled := by
      simp only [PythonOpenCensusCallAttemptTracer.RecordEnd, i1, if_true,
        PythonOpenCensusCallAttemptTracer.IsSampled, PythonCensusContext.IsSampled,
        PythonCensusContext.EndSpan, PythonCensusContext.SetStatus]
      cases stats <;> by_cases hs : a.status_code_ = StatusCode.kOk <;>
        cases smp <;> simp [hs, hm.1, hm.2] at hm ⊢
    refine ⟨hcall.1, by rw [hcall.2]; exact i2, by rw [hcall.2]; exact i3,
      forall_removeAttempt (A := fun x => x.context_.span.end_calls = 0 ∧
        x.context_.span.sampled = smp) i4, ?_, ?_⟩
    · intro x hx
      simp only [List.mem_append, List.mem_singleton] at hx
      rcases hx with hx | rfl
      · exact i5 x hx
      · exact ⟨hrel.1, hrel.2.1⟩
    · simp only [List.map_append, List.filter_append, List.map_cons, List.map_nil]
      rw [← i6, hrel.2.2]
  | CallRecordAnnotation _ | CallRecordAnnotationStructured _ =>
    simp [step, PythonOpenCensusCallTracer.RecordAnnotation,
      PythonOpenCensusCallTracer.RecordAnnotationStructured] at h
    subst h
    refine ⟨?_, ?_, ?_, by simpa using i4, by simpa using i5, by simpa using i6⟩
    all_goals repeat' split
    all_goals simp [PythonCensusContext.AddSpanAnnotation, i1, i2, i3]
  | RecordSendInitialMetadata _ _ _ =>
    simp [step, Option.map_eq_some'] at h
    obtain ⟨a, -, rfl⟩ := h
    exact ⟨i1, i2, i3, i4, i5, i6⟩
  | RecordReceivedTrailingMetadata id stats now status md ts =>
    simp [step, Option.map_eq_some'] at h
    obtain ⟨a, ha, rfl⟩ := h
    have hm : a.context_.span.end_calls = 0 ∧ a.context_.span.sampled = smp :=
      i4 _ (mem_of_findAttempt ha)
    refine ⟨i1, i2, i3, forall_replaceAttempt (A := fun x => x.context_.span.end_calls = 0 ∧
        x.context_.span.sampled = smp) i4 ?_, i5, i6⟩
    cases stats <;>
      simp [PythonOpenCensusCallAttemptTracer.RecordReceivedTrailingMetadata, hm]
  | RecordSendMessage id | RecordReceivedMessage id | RecordCancel id =>
    simp [step, Option.map_eq_some'] at h
    obtain ⟨a, ha, rfl⟩ := h
    have hm : a.context_.span.end_calls = 0 ∧ a.context_.span.sampled = smp :=
      i4 _ (mem_of_findAttempt ha)
    exact ⟨i1, i2, i3, forall_replaceAttempt (A := fun x => x.context_.span.end_calls = 0 ∧
        x.context_.span.sampled = smp) i4 (by
          simpa [PythonOpenCensusCallAttemptTracer.RecordSendMessage,
            PythonOpenCensusCallAttemptTracer.RecordReceivedMessage,
            PythonOpenCensusCallAttemptTracer.RecordCancel] using hm), i5, i6⟩
  | AttemptRecordAnnotation id x | AttemptRecordAnnotationStructured id x =>
    simp [step, Option.map_eq_some'] at h
    obtain ⟨a, ha, rfl⟩ := h
    have hm : a.context_.span.end_calls = 0 ∧ a.context_.span.sampled = smp :=
      i4 _ (mem_of_findAttempt ha)
    refine ⟨i1, i2, i3, forall_replaceAttempt (A := fun x => x.context_.span.end_calls = 0 ∧
        x.context_.span.sampled = smp) i4 ?_, i5, i6⟩
    simp only [PythonOpenCensusCallAttemptTracer.RecordAnnotation,
      PythonOpenCensusCallAttemptTracer.RecordAnnotationStructured]
    repeat' split
    all_goals exact hm

theorem countEnds_cons (e : Event) (rest : List Event) :
    countEnds (e :: rest) = countEnds [e] + countEnds rest := by
  cases e <;> simp [countEnds]; omega

/-- A hook that runs with stats collection disabled emits no metric. -/
theorem step_no_metrics {d : Deps} {s s' : System} {e : Event} (h : step d s e = some s')
    (he : ∀ v, e.statsRead = some v → v = false) : s'.metrics = s.metrics := by
  cases e with
  | StartNewAttempt stats now start_now status0 tr =>
    have hs : stats = false := by simpa [Event.statsRead] using he
    subst hs
    simp [step, PythonOpenCensusCallTracer.StartNewAttempt,
      PythonOpenCensusCallAttemptTracer.create] at h
    subst h
    simp
  | RecordReceivedTrailingMetadata id stats now status md ts =>
    have hs : stats = false := by simpa [Event.statsRead] using he
    subst hs
    simp [step, Option.map_eq_some'] at h
    obtain ⟨a, -, rfl⟩ := h
    simp [PythonOpenCensusCallAttemptTracer.RecordReceivedTrailingMetadata]
  | RecordEnd id stats now =>
    have hs : stats = false := by simpa [Event.statsRead] using he
    subst hs
    simp [step, Option.map_eq_some'] at h
    obtain ⟨a, -, rfl⟩ := h
    simp [PythonOpenCensusCallAttemptTracer.RecordEnd]
  | CallRecordAnnotation _ | CallRecordAnnotationStructured _ =>
    simp [step] at h
    subst h
    simp
  | _ =>
    simp [step, Option.map_eq_some'] at h
    obtain ⟨a, -, rfl⟩ := h
    simp

/-- Every `RecordEnd` hook releases one attempt, every `StartNewAttempt`
creates one, and no other hook creates or releases an attempt. -/
theorem run_released {d : Deps} (evs : List Event) :
    ∀ {s s' : System}, run d s evs = some s' →
      s'.released.length = s.released.length + countEnds evs ∧
      s'.released.length + s'.attempts.length =
        s.released.length + s.attempts.length +
          (countRetries evs + countTransparentRetries evs) := by
  induction evs with
  | nil =>
    intro s s' h
    simp [run] at h
    subst h
    simp [countEnds, countRetries, countTransparentRetries]
  | cons e rest ih =>
    intro s s' h
    obtain ⟨s1, h1, h2⟩ := run_cons_some h
    obtain ⟨b1, b2⟩ := ih h2
    rw [countEnds_cons e rest, countRetries_cons e rest, countTransparentRetries_cons e rest]
    have key : s1.released.length = s.released.length + countEnds [e] ∧
        s1.released.length + s1.attempts.length =
          s.released.length + s.attempts.length +
            (countRetries [e] + countTransparentRetries [e]) := by
      cases e with
      | StartNewAttempt stats now start_now status0 tr =>
        simp [step] at h1
        subst h1
        cases tr <;> simp [countEnds, countRetries, countTransparentRetries] <;> omega
      | RecordEnd id stats now =>
        simp [step, Option.map_eq_some'] at h1
        obtain ⟨a, ha, rfl⟩ := h1
        have hl := length_removeAttempt ha
        simp [countEnds, countRetries, countTransparentRetries]
        omega
      | CallRecordAnnotation _ | CallRecordAnnotationStructured _ =>
        simp [step] at h1
        subst h1
        simp [countEnds, countRetries, countTransparentRetries]
      | RecordSendInitialMetadata _ _ _ =>
        simp [step, Option.map_eq_some'] at h1
        obtain ⟨a, -, rfl⟩ := h1
        simp [countEnds, countRetries, countTransparentRetries]
      | _ =>
        simp [step, Option.map_eq_some'] at h1
        obtain ⟨a, -, rfl⟩ := h1
        simp [countEnds, countRetries, countTransparentRetries, length_replaceAttempt]
    omega

/-- The state of the spans holds right after the constructor of a call tracer
with tracing enabled. -/
theorem spanInv_start (method_ target_ trace_id parent_span_id : String)
    (registered_method sampled : Bool) (labels : List Label) :
    SpanInv sampled (System.start (PythonOpenCensusCallTracer.create method_ target_ trace_id
      parent_span_id true registered_method sampled labels)) := by
  simp [SpanInv, System.start, PythonOpenCensusCallTracer.create, GenerateClientContext]

/-- What the destructor does to the call span when tracing is enabled,
whatever the stats flag: it ends the span and exports it if it is sampled. -/
theorem finish_spans (stats : Bool) (s : System) (htr : s.call.tracing_enabled_ = true) :
    (finish stats s).call.context_.span.end_calls = s.call.context_.span.end_calls + 1 ∧
      (finish stats s).call.context_.span.sampled = s.call.context_.span.sampled ∧
      (finish stats s).spans =
        s.spans ++ [(finish stats s).call.context_.span].filter fun sp => sp.sampled := by
  cases stats <;> cases hs : s.call.context_.span.sampled <;>
    simp [finish, PythonOpenCensusCallTracer.destructor, htr, PythonCensusContext.EndSpan,
      PythonOpenCensusCallTracer.IsSampled, PythonCensusContext.IsSampled, hs, List.filter]

/-- C6. A freshly constructed call tracer with tracing enabled goes through
any lifecycle with stats collection disabled throughout, and is destroyed with
stats disabled. Then no hook and not the destructor emits any metric; every
`RecordEnd` releases an attempt whose span it has ended (exactly once); the
tracing backend receives from the hooks exactly the spans of the released
attempts that are sampled; and the destructor ends the call span (exactly
once) and exports it exactly if it is sampled. -/
theorem C6_scenario_C (d : Deps) (method_ target_ trace_id parent_span_id : String)
    (registered_method sampled : Bool) (labels : List Label) (evs : List Event) (s : System)
    (hrun : run d (System.start (PythonOpenCensusCallTracer.create method_ target_ trace_id
      parent_span_id true registered_method sampled labels)) evs = some s)
    (hstats : statsThroughout false evs) :
    s.metrics = [] ∧ (finish false s).metrics = [] ∧
      s.released.length = countEnds evs ∧
      (∀ a ∈ s.released, a.context_.span.end_calls = 1 ∧ a.context_.span.sampled = sampled) ∧
      s.spans = ((s.released.map fun a => a.context_.span).filter fun sp => sp.sampled) ∧
      (finish false s).call.context_.span.end_calls = 1 ∧
      (finish false s).call.context_.span.sampled = sampled ∧
      (finish false s).spans =
        s.spans ++ [(finish false s).call.context_.span].filter fun sp => sp.sampled := by
  have hm : s.metrics = [] :=
    run_invariant (fun x => x.metrics = []) (fun e => ∀ v, e.statsRead = some v → v = false)
      (fun x e x1 hq hp hx => (step_no_metrics hx hq).trans hp) evs hstats hrun
      (by simp [System.start])
  have hinv : SpanInv sampled s :=
    run_invariant (SpanInv sampled) (fun _ => True)
      (fun x e x1 _ hp hx => step_spanInv hx hp) evs (fun _ _ => trivial) hrun
      (spanInv_start method_ target_ trace_id parent_span_id registered_method sampled labels)
  obtain ⟨i1, i2, i3, -, i5, i6⟩ := hinv
  obtain ⟨f1, f2, f3⟩ := finish_spans false s i1
  obtain ⟨r1, -⟩ := run_released evs hrun
  refine ⟨hm, ?_, ?_, i5, i6, by rw [f1, i2], by rw [f2, i3], f3⟩
  · simp [finish, PythonOpenCensusCallTracer.destructor, hm]
  · simpa [System.start] using r1

/-- Witness of C6 on the sample lifecycle with stats disabled. -/
theorem C6_scenario_C_witness :
    ∃ s : System, run sampleDeps (System.start sampleCall) lifecycleC = some s ∧
      s.metrics = [] ∧ (finish false s).metrics = [] ∧
      s.released.length = countEnds lifecycleC ∧
      (∀ a ∈ s.released, a.context_.span.end_calls = 1 ∧ a.context_.span.sampled = true) ∧
      s.spans = ((s.released.map fun a => a.context_.span).filter fun sp => sp.sampled) ∧
      (finish false s).call.context_.span.end_calls = 1 ∧
      (finish false s).call.context_.span.sampled = true ∧
      (finish false s).spans =
        s.spans ++ [(finish false s).call.context_.span].filter fun sp => sp.sampled :=
  ⟨_, rfl,
    C6_scenario_C sampleDeps "pkg.Svc/Do" "dns:///srv" "t1" "p1" true true [] lifecycleC _ rfl
      (by decide)⟩

/-- C7, as the code has it. A freshly constructed call tracer with tracing
enabled goes through a lifecycle with stats enabled throughout that has
exactly one attempt (started with `is_transparent_retry = false`), which
receives trailing metadata once and is ended, and is then destroyed with stats
enabled. The whole lifecycle emits exactly one started counter, exactly one
completed counter and retries-per-call once with value 0; exactly one attempt
span and the call span are ended, each exactly once; and the tracing backend
receives exactly these two spans, the attempt span first, when the root span
is sampled, and no span at all when it is not. -/
theorem C7_scenario_A (d : Deps) (method_ target_ trace_id parent_span_id : String)
    (registered_method sampled : Bool) (labels : List Label) (evs : List Event) (s : System)
    (hrun : run d (System.start (PythonOpenCensusCallTracer.create method_ target_ trace_id
      parent_span_id true registered_method sampled labels)) evs = some s)
    (hstats : statsThroughout true evs)
    (hR : countRetries evs = 1) (hT : countTransparentRetries evs = 0)
    (hC : countTrailers evs = 1) (hended : s.attempts = []) :
    valuesOf MetricsName.kRpcClientStartedRpcsMeasureName (finish true s).metrics =
        [MetricValue.int 1] ∧
      valuesOf MetricsName.kRpcClientCompletedRpcMeasureName (finish true s).metrics =
        [MetricValue.int 1] ∧
      valuesOf MetricsName.kRpcClientRetriesPerCallMeasureName (finish true s).metrics =
        [MetricValue.int 0] ∧
      ∃ a : PythonOpenCensusCallAttemptTracer,
        s.released = [a] ∧ a.context_.span.end_calls = 1 ∧
        (finish true s).call.context_.span.end_calls = 1 ∧
        (finish true s).spans =
          (if sampled then [a.context_.span, (finish true s).call.context_.span] else []) := by
  obtain ⟨c1, -⟩ := run_counters evs hrun
    (by simp [System.start, PythonOpenCensusCallTracer.create])
    (by simp [System.start, PythonOpenCensusCallTracer.create])
  obtain ⟨m1, m2, -⟩ := run_started_completed evs hrun hstats
  obtain ⟨n1, -, -⟩ := run_call_metrics evs hrun
  obtain ⟨f1, -⟩ := finish_metrics s
  obtain ⟨-, r2⟩ := run_released evs hrun
  have hinv : SpanInv sampled s :=
    run_invariant (SpanInv sampled) (fun _ => True)
      (fun x e x1 _ hp hx => step_spanInv hx hp) evs (fun _ _ => trivial) hrun
      (spanInv_start method_ target_ trace_id parent_span_id registered_method sampled labels)
  obtain ⟨i1, i2, i3, -, i5, i6⟩ := hinv
  obtain ⟨g1, g2, g3⟩ := finish_spans true s i1
  simp only [System.start, PythonOpenCensusCallTracer.create, GenerateClientContext, hR, hT, hC,
    Nat.zero_add, hended, List.length_nil, Nat.add_zero] at c1 m1 m2 n1 r2
  obtain ⟨a, ha⟩ := List.length_eq_one.1 r2
  have ha1 := i5 a (by simp [ha])
  refine ⟨?_, ?_, ?_, a, ha, ha1.1, by rw [g1, i2], ?_⟩
  · rw [f1, destructor_metrics, valuesOf_append, m1]
    simp [valuesOf]
  · rw [f1, destructor_metrics, valuesOf_append, m2]
    simp [valuesOf]
  · rw [f1, destructor_metrics, valuesOf_append, n1, c1]
    simp [valuesOf, decU64]
  · rw [g3, i6, ha]
    cases sampled <;> simp [List.filter, ha1.2, g2, i3]

/-- Witness of C7 on the sample lifecycle with one attempt and a sampled root
span. -/
theorem C7_scenario_A_witness :
    ∃ s : System, run sampleDeps (System.start sampleCall) lifecycleA = some s ∧
      valuesOf MetricsName.kRpcClientStartedRpcsMeasureName (finish true s).metrics =
        [MetricValue.int 1] ∧
      valuesOf MetricsName.kRpcClientCompletedRpcMeasureName (finish true s).metrics =
        [MetricValue.int 1] ∧
      valuesOf MetricsName.kRpcClientRetriesPerCallMeasureName (finish true s).metrics =
        [MetricValue.int 0] ∧
      ∃ a : PythonOpenCensusCallAttemptTracer,
        s.released = [a] ∧ a.context_.span.end_calls = 1 ∧
        (finish true s).call.context_.span.end_calls = 1 ∧
        (finish true s).spans =
          (if true then [a.context_.span, (finish true s).call.context_.span] else []) :=
  ⟨_, rfl,
    C7_scenario_A sampleDeps "pkg.Svc/Do" "dns:///srv" "t1" "p1" true true [] lifecycleA _ rfl
      (by decide) rfl rfl rfl rfl⟩

/-- Counterexample to C7 as stated: tracing and stats are enabled, the single
attempt receives trailing metadata and is ended, the call tracer is destroyed,
but the root span is not sampled. One started counter and one completed
counter are emitted, and no span is handed to the tracing backend. -/
theorem C7_counterexample :
    (run sampleDeps (System.start sampleCallUnsampled) lifecycleA).map
      (fun s =>
        ((valuesOf MetricsName.kRpcClientStartedRpcsMeasureName (finish true s).metrics).length,
         (valuesOf MetricsName.kRpcClientCompletedRpcMeasureName (finish true s).metrics).length,
         (finish true s).spans)) = some (1, 1, []) := by
  decide

/-- C8. `RecordSendInitialMetadata` sets the trace-context field exactly when
tracing is enabled and the serialized trace context has positive length, to
exactly the serialized bytes, of which there are at most 64; it sets the tags
field exactly when stats are enabled and the serialized tags have positive
length; a field that is not set keeps the value it had, and the server-stats
field is never touched. Each of the two fields depends only on its own
condition. A trace context whose encoding exceeds 64 bytes is serialized to
zero length, so it is not written and the tags are written all the same. -/
theorem C8_send_initial_metadata (d : Deps) (stats : Bool)
    (parent : PythonOpenCensusCallTracer) (a : PythonOpenCensusCallAttemptTracer)
    (md : MetadataBatch) :
    (a.RecordSendInitialMetadata d stats parent md).GrpcTraceBinMetadata =
        (if parent.tracing_enabled_ = true ∧
            0 < (TraceContextSerialize d a.context_ kMaxTraceContextLen).length then
          some (TraceContextSerialize d a.context_ kMaxTraceContextLen)
         else md.GrpcTraceBinMetadata) ∧
      (a.RecordSendInitialMetadata d stats parent md).GrpcTagsBinMetadata =
        (if stats = true ∧ 0 < (StatsContextSerialize d kMaxTagsLen).length then
          some (StatsContextSerialize d kMaxTagsLen)
         else md.GrpcTagsBinMetadata) ∧
      (a.RecordSendInitialMetadata d stats parent md).GrpcServerStatsBinMetadata =
        md.GrpcServerStatsBinMetadata ∧
      (TraceContextSerialize d a.context_ kMaxTraceContextLen).length ≤ 64 ∧
      (if 64 < (d.traceContextEncoding a.context_).length then
        (TraceContextSerialize d a.context_ kMaxTraceContextLen).length = 0 ∧
        (a.RecordSendInitialMetadata d stats parent md).GrpcTraceBinMetadata =
          md.GrpcTraceBinMetadata
       else TraceContextSerialize d a.context_ kMaxTraceContextLen =
          d.traceContextEncoding a.context_) := by
  have hlen : (TraceContextSerialize d a.context_ kMaxTraceContextLen).length ≤ 64 := by
    unfold TraceContextSerialize kMaxTraceContextLen
    split <;> simp_all
  have hov : 64 < (d.traceContextEncoding a.context_).length →
      TraceContextSerialize d a.context_ kMaxTraceContextLen = [] := by
    intro h
    unfold TraceContextSerialize kMaxTraceContextLen
    rw [if_neg (by omega)]
  have hfit : ¬ 64 < (d.traceContextEncoding a.context_).length →
      TraceContextSerialize d a.context_ kMaxTraceContextLen =
        d.traceContextEncoding a.context_ := by
    intro h
    unfold TraceContextSerialize kMaxTraceContextLen
    rw [if_pos (by omega)]
  have e1 : (a.RecordSendInitialMetadata d stats parent md).GrpcTraceBinMetadata =
      (if parent.tracing_enabled_ = true ∧
          0 < (TraceContextSerialize d a.context_ kMaxTraceContextLen).length then
        some (TraceContextSerialize d a.context_ kMaxTraceContextLen)
       else md.GrpcTraceBinMetadata) := by
    unfold PythonOpenCensusCallAttemptTracer.RecordSendInitialMetadata
    cases stats <;> cases parent.tracing_enabled_ <;> simp <;>
      repeat' split
    all_goals simp_all
  refine ⟨e1, ?_, ?_, hlen, ?_⟩
  · unfold PythonOpenCensusCallAttemptTracer.RecordSendInitialMetadata
    cases stats <;> cases parent.tracing_enabled_ <;> simp <;>
      repeat' split
    all_goals simp_all
  · unfold PythonOpenCensusCallAttemptTracer.RecordSendInitialMetadata
    cases stats <;> cases parent.tracing_enabled_ <;> simp <;>
      repeat' split
    all_goals simp_all
  · split
    · rename_i h
      rw [e1, hov h]
      simp
    · rename_i h
      exact hfit h

/-- C9. The elapsed time extracted from trailing metadata is 0 when the
server-stats field is absent and when its blob is malformed; and with stats
enabled the server-latency metric `RecordReceivedTrailingMetadata` emits is 0
seconds, emitted exactly once, when the metadata batch is absent, when the
field is absent and when the blob is malformed. The functions are total: no
case fails. -/
theorem C9_elapsed_time_default (d : Deps) (stats : Bool) (now : Int)
    (parent : PythonOpenCensusCallTracer) (a : PythonOpenCensusCallAttemptTracer)
    (status : StatusCode) (ts : Option TransportStreamStats)
    (trace_bin tags_bin : Option (List Nat)) (blob : List Nat)
    (hmalformed : d.serverStatsDecoding blob = none) :
    GetElapsedTimeFromTrailingMetadata d stats ⟨trace_bin, tags_bin, none⟩ = 0 ∧
      GetElapsedTimeFromTrailingMetadata d stats ⟨trace_bin, tags_bin, some blob⟩ = 0 ∧
      valuesOf MetricsName.kRpcClientServerLatencyMeasureName
        (a.RecordReceivedTrailingMetadata d true now parent status none ts).2 =
          [MetricValue.seconds 0] ∧
      valuesOf MetricsName.kRpcClientServerLatencyMeasureName
        (a.RecordReceivedTrailingMetadata d true now parent status
          (some ⟨trace_bin, tags_bin, none⟩) ts).2 = [MetricValue.seconds 0] ∧
      valuesOf MetricsName.kRpcClientServerLatencyMeasureName
        (a.RecordReceivedTrailingMetadata d true now parent status
          (some ⟨trace_bin, tags_bin, some blob⟩) ts).2 = [MetricValue.seconds 0] := by
  refine ⟨?_, ?_, ?_, ?_, ?_⟩
  · cases stats <;> simp [GetElapsedTimeFromTrailingMetadata]
  · cases stats <;> simp [GetElapsedTimeFromTrailingMetadata, ServerStatsDeserialize, hmalformed]
  · simp [PythonOpenCensusCallAttemptTracer.RecordReceivedTrailingMetadata, valuesOf]
  · simp [PythonOpenCensusCallAttemptTracer.RecordReceivedTrailingMetadata, valuesOf,
      GetElapsedTimeFromTrailingMetadata]
  · simp [PythonOpenCensusCallAttemptTracer.RecordReceivedTrailingMetadata, valuesOf,
      GetElapsedTimeFromTrailingMetadata, ServerStatsDeserialize, hmalformed]

/-- Witness of C9: for the sample helpers the one-byte blob `[9]` is
malformed. -/
theorem C9_elapsed_time_default_witness :
    sampleDeps.serverStatsDecoding [9] = none ∧
      GetElapsedTimeFromTrailingMetadata sampleDeps true ⟨none, none, none⟩ = 0 ∧
      GetElapsedTimeFromTrailingMetadata sampleDeps true ⟨none, none, some [9]⟩ = 0 ∧
      valuesOf MetricsName.kRpcClientServerLatencyMeasureName
        ((PythonOpenCensusCallAttemptTracer.create true 11 StatusCode.kOk sampleCall 0
          false).1.RecordReceivedTrailingMetadata sampleDeps true 20 sampleCall
            StatusCode.kOk none none).2 = [MetricValue.seconds 0] ∧
      valuesOf MetricsName.kRpcClientServerLatencyMeasureName
        ((PythonOpenCensusCallAttemptTracer.create true 11 StatusCode.kOk sampleCall 0
          false).1.RecordReceivedTrailingMetadata sampleDeps true 20 sampleCall
            StatusCode.kOk (some ⟨none, none, none⟩) none).2 = [MetricValue.seconds 0] ∧
      valuesOf MetricsName.kRpcClientServerLatencyMeasureName
        ((PythonOpenCensusCallAttemptTracer.create true 11 StatusCode.kOk sampleCall 0
          false).1.RecordReceivedTrailingMetadata sampleDeps true 20 sampleCall
            StatusCode.kOk (some ⟨none, none, some [9]⟩) none).2 = [MetricValue.seconds 0] :=
  ⟨rfl,
    C9_elapsed_time_default sampleDeps true 20 sampleCall
      (PythonOpenCensusCallAttemptTracer.create true 11 StatusCode.kOk sampleCall 0 false).1
      StatusCode.kOk none none none [9] rfl⟩

/-- Every hook preserves the state of the annotations of an unsampled call. -/
theorem step_unsampledInv {d : Deps} {s s' : System} {e : Event}
    (h : step d s e = some s') (hinv : UnsampledInv s) : UnsampledInv s' := by
  obtain ⟨i1, i2, i3⟩ := hinv
  cases e with
  | StartNewAttempt stats now start_now status0 tr =>
    simp [step, PythonOpenCensusCallTracer.StartNewAttempt] at h
    subst h
    refine ⟨by simpa [PythonCensusContext.IncreaseChildSpanCount] using i1, ?_,
      by simpa using i3⟩
    intro p hp
    simp only [List.mem_append, List.mem_singleton] at hp
    rcases hp with hp | rfl
    · exact i2 p hp
    · cases stats <;> cases s.call.tracing_enabled_ <;>
      simp [PythonOpenCensusCallAttemptTracer.create,
        PythonOpenCensusCallTracer.CreateCensusContextForCallAttempt, PythonCensusContext.child,
        PythonCensusContext.AddSpanAttribute, PythonCensusContext.IncreaseChildSpanCount, i1]
  | RecordEnd id stats now =>
    simp [step, Option.map_eq_some'] at h
    obtain ⟨a, ha, rfl⟩ := h
    have hm : a.context_.span.sampled = false ∧ a.context_.span.annotations = [] :=
      i2 _ (mem_of_findAttempt ha)
    have hcall : (a.RecordEnd d stats now s.call).1.context_ = s.call.context_ := by
      cases stats <;> simp [PythonOpenCensusCallAttemptTracer.RecordEnd]
      split <;> simp
    have hrel : (a.RecordEnd d stats now s.call).2.1.context_.span.sampled = false ∧
        (a.RecordEnd d stats now s.call).2.1.context_.span.annotations = [] := by
      simp only [PythonOpenCensusCallAttemptTracer.RecordEnd,
        PythonCensusContext.EndSpan, PythonCensusContext.SetStatus]
      cases stats <;> cases s.call.tracing_enabled_ <;>
        by_cases hs : a.status_code_ = StatusCode.kOk <;> simp [hs, hm.1, hm.2]
    refine ⟨by rw [hcall]; exact i1,
      forall_removeAttempt (A := fun x => x.context_.span.sampled = false ∧
        x.context_.span.annotations = []) i2, ?_⟩
    intro x hx
    simp only [List.mem_append, List.mem_singleton] at hx
    rcases hx with hx | rfl
    · exact i3 x hx
    · exact hrel
  | CallRecordAnnotation _ | CallRecordAnnotationStructured _ =>
    simp [step, PythonOpenCensusCallTracer.RecordAnnotation,
      PythonOpenCensusCallTracer.RecordAnnotationStructured, PythonCensusContext.IsSampled,
      i1.1] at h
    subst h
    exact ⟨i1, i2, i3⟩
  | RecordSendInitialMetadata _ _ _ =>
    simp [step, Option.map_eq_some'] at h
    obtain ⟨a, -, rfl⟩ := h
    exact ⟨i1, i2, i3⟩
  | RecordReceivedTrailingMetadata id stats now status md ts =>
    simp [step, Option.map_eq_some'] at h
    obtain ⟨a, ha, rfl⟩ := h
    have hm : a.context_.span.sampled = false ∧ a.context_.span.annotations = [] :=
      i2 _ (mem_of_findAttempt ha)
    refine ⟨i1, forall_replaceAttempt (A := fun x => x.context_.span.sampled = false ∧
        x.context_.span.annotations = []) i2 ?_, i3⟩
    cases stats <;>
      simp [PythonOpenCensusCallAttemptTracer.RecordReceivedTrailingMetadata, hm]
  | RecordSendMessage id | RecordReceivedMessage id | RecordCancel id =>
    simp [step, Option.map_eq_some'] at h
    obtain ⟨a, ha, rfl⟩ := h
    have hm : a.context_.span.sampled = false ∧ a.context_.span.annotations = [] :=
      i2 _ (mem_of_findAttempt ha)
    exact ⟨i1, forall_replaceAttempt (A := fun x => x.context_.span.sampled = false ∧
        x.context_.span.annotations = []) i2 (by
          simpa [PythonOpenCensusCallAttemptTracer.RecordSendMessage,
            PythonOpenCensusCallAttemptTracer.RecordReceivedMessage,
            PythonOpenCensusCallAttemptTracer.RecordCancel] using hm), i3⟩
  | AttemptRecordAnnotation id x | AttemptRecordAnnotationStructured id x =>
    simp [step, Option.map_eq_some'] at h
    obtain ⟨a, ha, rfl⟩ := h
    have hm : a.context_.span.sampled = false ∧ a.context_.span.annotations = [] :=
      i2 _ (mem_of_findAttempt ha)
    refine ⟨i1, forall_replaceAttempt (A := fun x => x.context_.span.sampled = false ∧
        x.context_.span.annotations = []) i2 ?_, i3⟩
    simpa [PythonOpenCensusCallAttemptTracer.RecordAnnotation,
      PythonOpenCensusCallAttemptTracer.RecordAnnotationStructured,
      PythonCensusContext.IsSampled, hm.1] using hm

/-- C10. When the span of its context is not sampled, each of the four
`RecordAnnotation` overloads (text or structured, on the call tracer or on an
attempt tracer) returns the tracer unchanged. Hence in every lifecycle of a
call whose root span is not sampled no span ever carries an annotation: not
the call span, not the span of a live attempt, not the span of a released
attempt. -/
theorem C10_scenario_D (d : Deps) (t : PythonOpenCensusCallTracer)
    (a : PythonOpenCensusCallAttemptTracer) (text : String) (structured : Annotation)
    (method_ target_ trace_id parent_span_id : String)
    (tracing_enabled registered_method : Bool) (labels : List Label)
    (evs : List Event) (s : System)
    (ht : t.context_.IsSampled = false) (ha : a.context_.IsSampled = false)
    (hrun : run d (System.start (PythonOpenCensusCallTracer.create method_ target_ trace_id
      parent_span_id tracing_enabled registered_method false labels)) evs = some s) :
    t.RecordAnnotation text = t ∧ t.RecordAnnotationStructured structured = t ∧
      a.RecordAnnotation text = a ∧ a.RecordAnnotationStructured structured = a ∧
      s.call.context_.span.annotations = [] ∧
      (∀ p ∈ s.attempts, p.2.context_.span.annotations = []) ∧
      (∀ x ∈ s.released, x.context_.span.annotations = []) ∧
      (∀ sp ∈ s.spans, sp.annotations = []) := by
  have hinv : UnsampledInv s ∧ s.spans = [] := by
    refine run_invariant (fun x => UnsampledInv x ∧ x.spans = []) (fun _ => True) ?_ evs
      (fun _ _ => trivial) hrun ?_
    · intro x e x1 _ hp hx
      refine ⟨step_unsampledInv hx hp.1, ?_⟩
      obtain ⟨⟨j1, j2, j3⟩, j4⟩ := hp
      cases e with
      | StartNewAttempt stats now start_now status0 tr =>
        simp [step] at hx
        subst hx
        exact j4
      | RecordEnd id stats now =>
        simp [step, Option.map_eq_some'] at hx
        obtain ⟨b, hb, rfl⟩ := hx
        have hm : b.context_.span.sampled = false ∧ b.context_.span.annotations = [] :=
          j2 _ (mem_of_findAttempt hb)
        simp only [PythonOpenCensusCallAttemptTracer.RecordEnd,
          PythonOpenCensusCallAttemptTracer.IsSampled, PythonCensusContext.IsSampled,
          PythonCensusContext.EndSpan, PythonCensusContext.SetStatus]
        cases stats <;> cases x.call.tracing_enabled_ <;>
          by_cases hs : b.status_code_ = StatusCode.kOk <;> simp [hs, hm.1, j4]
      | CallRecordAnnotation _ | CallRecordAnnotationStructured _ =>
        simp [step] at hx
        subst hx
        exact j4
      | _ =>
        simp [step, Option.map_eq_some'] at hx
        obtain ⟨b, -, rfl⟩ := hx
        exact j4
    · simp [UnsampledInv, System.start, PythonOpenCensusCallTracer.create,
        GenerateClientContext]
  obtain ⟨⟨i1, i2, i3⟩, i4⟩ := hinv
  refine ⟨?_, ?_, ?_, ?_, i1.2, fun p hp => (i2 p hp).2, fun x hx => (i3 x hx).2, ?_⟩
  · simp [PythonOpenCensusCallTracer.RecordAnnotation, ht]
  · simp [PythonOpenCensusCallTracer.RecordAnnotationStructured, ht]
  · simp [PythonOpenCensusCallAttemptTracer.RecordAnnotation, ha]
  · simp [PythonOpenCensusCallAttemptTracer.RecordAnnotationStructured, ha]
  · simp [i4]

/-- Witness of C10: the unsampled sample call goes through a lifecycle that
records annotations on the call and on its attempt. -/
theorem C10_scenario_D_witness :
    ∃ s : System, run sampleDeps (System.start sampleCallUnsampled) lifecycleD = some s ∧
      sampleCallUnsampled.RecordAnnotation "x" = sampleCallUnsampled ∧
      sampleCallUnsampled.RecordAnnotationStructured ⟨1, "y"⟩ = sampleCallUnsampled ∧
      sampleAttemptUnsampled.RecordAnnotation "x" =
        sampleAttemptUnsampled ∧
      sampleAttemptUnsampled.RecordAnnotationStructured ⟨1, "y"⟩ =
        sampleAttemptUnsampled ∧
      s.call.context_.span.annotations = [] ∧
      (∀ p ∈ s.attempts, p.2.context_.span.annotations = []) ∧
      (∀ x ∈ s.released, x.context_.span.annotations = []) ∧
      (∀ sp ∈ s.spans, sp.annotations = []) :=
  ⟨_, rfl,
    C10_scenario_D sampleDeps sampleCallUnsampled
      sampleAttemptUnsampled "x" ⟨1, "y"⟩ "pkg.Svc/Do" "dns:///srv" "t1" "p1" true true [] lifecycleD _
      rfl rfl rfl⟩

theorem countRetries_append (pre suf : List Event) :
    countRetries (pre ++ suf) = countRetries pre + countRetries suf := by
  induction pre with
  | nil => simp [countRetries]
  | cons e rest ih =>
    rw [List.cons_append, countRetries_cons, countRetries_cons e rest, ih]
    omega

theorem countTransparentRetries_append (pre suf : List Event) :
    countTransparentRetries (pre ++ suf) =
      countTransparentRetries pre + countTransparentRetries suf := by
  induction pre with
  | nil => simp [countTransparentRetries]
  | cons e rest ih =>
    rw [List.cons_append, countTransparentRetries_cons, countTransparentRetries_cons e rest, ih]
    omega

/-- C11. In every state of the call tracer in which the three 64-bit counters
are below their maximum, `StartNewAttempt(is_transparent_retry)` passes the
value of `retries_` before the call to the constructor of the attempt as its
ordinal (with tracing enabled the attempt span gets the attributes
`previous-rpc-attempts`, holding that value, and `transparent-retry`; with
tracing disabled no attribute is attached), increments `transparent_retries_`
by 1 if `is_transparent_retry` and `retries_` by 1 otherwise, leaves the other
counter unchanged, and increments `num_active_rpcs_` and the child-span count
of the root context by 1 each. Hence over the life of a call (fewer than
`2 ^ 64` attempts) both retry counters never decrease: between any two points
of a lifecycle they are ordered. -/
theorem C11_start_new_attempt (d : Deps) (stats : Bool) (now start_now : Int)
    (status0 : StatusCode) (t : PythonOpenCensusCallTracer) (is_transparent_retry : Bool)
    (method_ target_ trace_id parent_span_id : String)
    (tracing_enabled registered_method sampled : Bool) (labels : List Label)
    (pre suf : List Event) (s1 s2 : System)
    (hr : t.retries_ + 1 < 2 ^ 64) (ht : t.transparent_retries_ + 1 < 2 ^ 64)
    (ha : t.num_active_rpcs_ + 1 < 2 ^ 64)
    (hrun1 : run d (System.start (PythonOpenCensusCallTracer.create method_ target_ trace_id
      parent_span_id tracing_enabled registered_method sampled labels)) pre = some s1)
    (hrun2 : run d s1 suf = some s2)
    (hbr : countRetries (pre ++ suf) < 2 ^ 64)
    (hbt : countTransparentRetries (pre ++ suf) < 2 ^ 64) :
    (t.StartNewAttempt stats now start_now status0 is_transparent_retry).2.1 =
        (PythonOpenCensusCallAttemptTracer.create stats start_now status0
          (t.StartNewAttempt stats now start_now status0 is_transparent_retry).1
          t.retries_ is_transparent_retry).1 ∧
      (t.StartNewAttempt stats now start_now status0
          is_transparent_retry).2.1.context_.span.attributes =
        (if t.tracing_enabled_ then
          [("previous-rpc-attempts", toString t.retries_),
           ("transparent-retry", if is_transparent_retry then "1" else "0")]
         else []) ∧
      (t.StartNewAttempt stats now start_now status0 is_transparent_retry).1.retries_ =
        (if is_transparent_retry then t.retries_ else t.retries_ + 1) ∧
      (t.StartNewAttempt stats now start_now status0
          is_transparent_retry).1.transparent_retries_ =
        (if is_transparent_retry then t.transparent_retries_ + 1
         else t.transparent_retries_) ∧
      (t.StartNewAttempt stats now start_now status0 is_transparent_retry).1.num_active_rpcs_ =
        t.num_active_rpcs_ + 1 ∧
      (t.StartNewAttempt stats now start_now status0
          is_transparent_retry).1.context_.span.child_span_count =
        t.context_.span.child_span_count + 1 ∧
      s1.call.retries_ ≤ s2.call.retries_ ∧
      s1.call.transparent_retries_ ≤ s2.call.transparent_retries_ := by
  have hrun : run d (System.start (PythonOpenCensusCallTracer.create method_ target_ trace_id
      parent_span_id tracing_enabled registered_method sampled labels)) (pre ++ suf) =
      some s2 := by
    rw [run_append, hrun1]
    simpa using hrun2
  obtain ⟨a1, a2⟩ := run_counters pre hrun1
    (by simp [System.start, PythonOpenCensusCallTracer.create])
    (by simp [System.start, PythonOpenCensusCallTracer.create])
  obtain ⟨b1, b2⟩ := run_counters (pre ++ suf) hrun
    (by simp [System.start, PythonOpenCensusCallTracer.create])
    (by simp [System.start, PythonOpenCensusCallTracer.create])
  simp only [System.start, PythonOpenCensusCallTracer.create, Nat.zero_add] at a1 a2 b1 b2
  rw [countRetries_append] at hbr b1
  rw [countTransparentRetries_append] at hbt b2
  refine ⟨rfl, ?_, ?_, ?_, ?_, ?_, ?_, ?_⟩
  · cases stats <;> cases htr : t.tracing_enabled_ <;>
      simp [PythonOpenCensusCallTracer.StartNewAttempt, PythonOpenCensusCallAttemptTracer.create,
        PythonOpenCensusCallTracer.CreateCensusContextForCallAttempt, PythonCensusContext.child,
        PythonCensusContext.AddSpanAttribute, htr]
  · cases is_transparent_retry <;>
      simp [PythonOpenCensusCallTracer.StartNewAttempt, incU64]
    omega
  · cases is_transparent_retry <;>
      simp [PythonOpenCensusCallTracer.StartNewAttempt, incU64]
    omega
  · simp [PythonOpenCensusCallTracer.StartNewAttempt, incU64]
    omega
  · simp [PythonOpenCensusCallTracer.StartNewAttempt, PythonCensusContext.IncreaseChildSpanCount]
  · rw [a1, b1]
    omega
  · rw [a2, b2]
    omega

/-- Witness of C11: the sample call after its first attempt started, and the
sample lifecycle split after five hooks. -/
theorem C11_start_new_attempt_witness :
    ∃ s1 s2 : System,
      run sampleDeps (System.start sampleCall) (lifecycleB.take 5) = some s1 ∧
      run sampleDeps s1 (lifecycleB.drop 5) = some s2 ∧
      (s1.call.StartNewAttempt true 30 31 StatusCode.kOk false).2.1 =
        (PythonOpenCensusCallAttemptTracer.create true 31 StatusCode.kOk
          (s1.call.StartNewAttempt true 30 31 StatusCode.kOk false).1
          s1.call.retries_ false).1 ∧
      (s1.call.StartNewAttempt true 30 31 StatusCode.kOk false).2.1.context_.span.attributes =
        (if s1.call.tracing_enabled_ then
          [("previous-rpc-attempts", toString s1.call.retries_),
           ("transparent-retry", if false then "1" else "0")]
         else []) ∧
      (s1.call.StartNewAttempt true 30 31 StatusCode.kOk false).1.retries_ =
        (if false then s1.call.retries_ else s1.call.retries_ + 1) ∧
      (s1.call.StartNewAttempt true 30 31 StatusCode.kOk false).1.transparent_retries_ =
        (if false then s1.call.transparent_retries_ + 1 else s1.call.transparent_retries_) ∧
      (s1.call.StartNewAttempt true 30 31 StatusCode.kOk false).1.num_active_rpcs_ =
        s1.call.num_active_rpcs_ + 1 ∧
      (s1.call.StartNewAttempt true 30 31 StatusCode.kOk false).1.context_.span.child_span_count =
        s1.call.context_.span.child_span_count + 1 ∧
      s1.call.retries_ ≤ s2.call.retries_ ∧
      s1.call.transparent_retries_ ≤ s2.call.transparent_retries_ :=
  ⟨_, _, rfl, rfl,
    C11_start_new_attempt sampleDeps true 30 31 StatusCode.kOk _ false
      "pkg.Svc/Do" "dns:///srv" "t1" "p1" true true true [] (lifecycleB.take 5)
      (lifecycleB.drop 5) _ _ (by decide) (by decide) (by decide) rfl rfl (by decide)
      (by decide)⟩

/-- C12. `StartNewAttempt` adds exactly `now - time_at_last_attempt_end_` to
the cumulative retry delay when at least one of `retries_` and
`transparent_retries_` is not zero, stats are enabled and `num_active_rpcs_`
is zero, and leaves the cumulative retry delay unchanged in every other case.
In particular the first `StartNewAttempt` of a call, which finds both counters
at zero, never changes it: on a freshly constructed call tracer the delay
stays 0. -/
theorem C12_retry_delay_update (stats : Bool) (now start_now : Int) (status0 : StatusCode)
    (t : PythonOpenCensusCallTracer) (is_transparent_retry : Bool)
    (method_ target_ trace_id parent_span_id : String)
    (tracing_enabled registered_method sampled : Bool) (labels : List Label) :
    (t.StartNewAttempt stats now start_now status0 is_transparent_retry).1.retry_delay_ =
        (if (t.retries_ ≠ 0 ∨ t.transparent_retries_ ≠ 0) ∧ stats = true ∧
            t.num_active_rpcs_ = 0 then
          t.retry_delay_ + (now - t.time_at_last_attempt_end_)
         else t.retry_delay_) ∧
      ((PythonOpenCensusCallTracer.create method_ target_ trace_id parent_span_id
          tracing_enabled registered_method sampled labels).StartNewAttempt stats now start_now
          status0 is_transparent_retry).1.retry_delay_ = 0 := by
  constructor
  · simp only [PythonOpenCensusCallTracer.StartNewAttempt]
    by_cases h1 : t.retries_ = 0 <;> by_cases h2 : t.transparent_retries_ = 0 <;>
      by_cases h3 : t.num_active_rpcs_ = 0 <;> cases stats <;> simp [h1, h2, h3]
  · simp [PythonOpenCensusCallTracer.StartNewAttempt, PythonOpenCensusCallTracer.create]

/-- C15, as the code has it. The destructor of the call tracer, run with stats
enabled, appends the method label to the labels of the call context exactly
once and emits exactly three call-level metrics, each once and all three with
that same extended label list: retries-per-call (`retries_ - 1`),
transparent-retries-per-call and retry-delay-per-call (in seconds). Run with
stats disabled it emits no metric and leaves the labels as they were. -/
theorem C15_destructor_metrics (t : PythonOpenCensusCallTracer) :
    (t.destructor true).1.context_.labels =
        t.context_.labels ++ [⟨LabelKey.kClientMethod, t.method_⟩] ∧
      (t.destructor true).2.metrics =
        [ ⟨MetricsName.kRpcClientRetriesPerCallMeasureName, MetricValue.int (decU64 t.retries_),
            t.registered_method_, (t.destructor true).1.context_.labels⟩,
          ⟨MetricsName.kRpcClientTransparentRetriesPerCallMeasureName,
            MetricValue.int t.transparent_retries_, t.registered_method_,
            (t.destructor true).1.context_.labels⟩,
          ⟨MetricsName.kRpcClientRetryDelayPerCallMeasureName,
            MetricValue.seconds t.retry_delay_, t.registered_method_,
            (t.destructor true).1.context_.labels⟩ ] ∧
      (t.destructor false).2.metrics = [] ∧
      (t.destructor false).1.context_.labels = t.context_.labels := by
  have hl : (t.destructor true).1.context_.labels =
      t.context_.labels ++ [⟨LabelKey.kClientMethod, t.method_⟩] := by
    cases h : t.tracing_enabled_ <;>
      simp [PythonOpenCensusCallTracer.destructor, h, PythonCensusContext.EndSpan]
  refine ⟨hl, ?_, ?_, ?_⟩
  · rw [hl, destructor_metrics]
  · simp [PythonOpenCensusCallTracer.destructor]
  · cases h : t.tracing_enabled_ <;>
      simp [PythonOpenCensusCallTracer.destructor, h, PythonCensusContext.EndSpan]

/-- Counterexample to C15 as stated: the destructor of the sample call tracer,
run with stats enabled, emits three call-level metrics, not four. -/
theorem C15_counterexample :
    (sampleCall.destructor true).2.metrics.map Metric.name =
      [MetricsName.kRpcClientRetriesPerCallMeasureName,
       MetricsName.kRpcClientTransparentRetriesPerCallMeasureName,
       MetricsName.kRpcClientRetryDelayPerCallMeasureName] ∧
      (sampleCall.destructor true).2.metrics.length ≠ 4 := by
  decide

/-- C16. The destructor computes retries-per-call as `retries_ - 1` in the
unsigned 64-bit arithmetic of the counter, with no clamp at 0. For a call
tracer whose `retries_` is 0 and which is destroyed with stats enabled the
emitted value is `2 ^ 64 - 1`, which reads `-1` as a signed 64-bit integer
and is not 0. This is the case of every lifecycle of a freshly constructed
call tracer in which `StartNewAttempt` was never called with
`is_transparent_retry = false` (never called at all, or called only for
transparent retries). -/
theorem C16_retries_per_call_underflow (d : Deps) (t : PythonOpenCensusCallTracer)
    (method_ target_ trace_id parent_span_id : String)
    (tracing_enabled registered_method sampled : Bool) (labels : List Label)
    (evs : List Event) (s : System)
    (hzero : t.retries_ = 0)
    (hrun : run d (System.start (PythonOpenCensusCallTracer.create method_ target_ trace_id
      parent_span_id tracing_enabled registered_method sampled labels)) evs = some s)
    (hnone : countRetries evs = 0) :
    valuesOf MetricsName.kRpcClientRetriesPerCallMeasureName (t.destructor true).2.metrics =
        [MetricValue.int (2 ^ 64 - 1)] ∧
      valuesOf MetricsName.kRpcClientRetriesPerCallMeasureName (finish true s).metrics =
        [MetricValue.int (2 ^ 64 - 1)] ∧
      asInt64 (2 ^ 64 - 1) = -1 ∧
      MetricValue.int (2 ^ 64 - 1) ≠ MetricValue.int 0 := by
  obtain ⟨c1, -⟩ := run_counters evs hrun
    (by simp [System.start, PythonOpenCensusCallTracer.create])
    (by simp [System.start, PythonOpenCensusCallTracer.create])
  obtain ⟨n1, -, -⟩ := run_call_metrics evs hrun
  obtain ⟨f1, -⟩ := finish_metrics s
  simp only [System.start, PythonOpenCensusCallTracer.create, hnone, Nat.zero_add] at c1 n1
  refine ⟨?_, ?_, ?_, ?_⟩
  · rw [destructor_metrics, hzero]
    simp [valuesOf, decU64]
  · rw [f1, destructor_metrics, valuesOf_append, n1, c1]
    simp [valuesOf, decU64]
  · simp [asInt64]
  · simp

/-- Witness of C16: the freshly constructed sample call tracer, and the sample
lifecycle with a transparent retry only. -/
theorem C16_retries_per_call_underflow_witness :
    ∃ s : System,
      run sampleDeps (System.start sampleCall) lifecycleTransparentOnly = some s ∧
      countRetries lifecycleTransparentOnly = 0 ∧
      valuesOf MetricsName.kRpcClientRetriesPerCallMeasureName
        (sampleCall.destructor true).2.metrics = [MetricValue.int (2 ^ 64 - 1)] ∧
      valuesOf MetricsName.kRpcClientRetriesPerCallMeasureName (finish true s).metrics =
        [MetricValue.int (2 ^ 64 - 1)] ∧
      asInt64 (2 ^ 64 - 1) = -1 ∧
      MetricValue.int (2 ^ 64 - 1) ≠ MetricValue.int 0 :=
  ⟨_, rfl, rfl,
    C16_retries_per_call_underflow sampleDeps sampleCall "pkg.Svc/Do" "dns:///srv" "t1" "p1"
      true true true [] lifecycleTransparentOnly _ rfl rfl rfl⟩

theorem findAttempt_append_singleton (id k : Nat) (b : PythonOpenCensusCallAttemptTracer)
    (l : List (Nat × PythonOpenCensusCallAttemptTracer)) :
    findAttempt id (l ++ [(k, b)]) =
      match findAttempt id l with
      | some a => some a
      | none => if k = id then some b else none := by
  induction l with
  | nil => simp [findAttempt]
  | cons p rest ih =>
    obtain ⟨i, x⟩ := p
    by_cases hi : i = id <;> simp [findAttempt, hi, ih]

theorem findAttempt_replaceAttempt (id id' : Nat) (b : PythonOpenCensusCallAttemptTracer)
    (l : List (Nat × PythonOpenCensusCallAttemptTracer)) :
    findAttempt id (replaceAttempt id' b l) =
      if id' = id then (findAttempt id l).map fun _ => b else findAttempt id l := by
  induction l with
  | nil => simp [findAttempt, replaceAttempt]
  | cons p rest ih =>
    obtain ⟨i, x⟩ := p
    by_cases h1 : i = id' <;> by_cases h2 : i = id <;> by_cases h3 : id' = id <;>
      simp_all [findAttempt, replaceAttempt]

theorem findAttempt_removeAttempt_ne {id id' : Nat} (hne : id' ≠ id)
    (l : List (Nat × PythonOpenCensusCallAttemptTracer)) :
    findAttempt id (removeAttempt id' l) = findAttempt id l := by
  induction l with
  | nil => simp [findAttempt, removeAttempt]
  | cons p rest ih =>
    obtain ⟨i, x⟩ := p
    by_cases h1 : i = id' <;> by_cases h2 : i = id <;>
      simp_all [findAttempt, removeAttempt]

theorem findAttempt_eq_none_of_not_mem {id : Nat}
    {l : List (Nat × PythonOpenCensusCallAttemptTracer)} (h : id ∉ l.map Prod.fst) :
    findAttempt id l = none := by
  cases hf : findAttempt id l with
  | none => rfl
  | some a =>
    exact absurd (List.mem_map.2 ⟨(id, a), mem_of_findAttempt hf, rfl⟩) h

theorem findAttempt_removeAttempt_self (id : Nat)
    (l : List (Nat × PythonOpenCensusCallAttemptTracer)) (hnd : (l.map Prod.fst).Nodup) :
    findAttempt id (removeAttempt id l) = none := by
  induction l with
  | nil => simp [findAttempt, removeAttempt]
  | cons p rest ih =>
    obtain ⟨i, x⟩ := p
    simp only [List.map_cons, List.nodup_cons] at hnd
    by_cases h1 : i = id
    · subst h1
      simp only [removeAttempt, if_true]
      exact findAttempt_eq_none_of_not_mem hnd.1
    · simp [findAttempt, removeAttempt, h1, ih hnd.2]

theorem map_fst_replaceAttempt (id : Nat) (b : PythonOpenCensusCallAttemptTracer)
    (l : List (Nat × PythonOpenCensusCallAttemptTracer)) :
    (replaceAttempt id b l).map Prod.fst = l.map Prod.fst := by
  induction l with
  | nil => rfl
  | cons p rest ih =>
    obtain ⟨i, x⟩ := p
    by_cases h : i = id <;> simp [replaceAttempt, h, ih]

theorem removeAttempt_sublist (id : Nat) (l : List (Nat × PythonOpenCensusCallAttemptTracer)) :
    (removeAttempt id l).Sublist l := by
  induction l with
  | nil => simp [removeAttempt]
  | cons p rest ih =>
    obtain ⟨i, x⟩ := p
    by_cases h : i = id
    · simp [removeAttempt, h]
    · simp [removeAttempt, h, ih]

theorem trailerLabels_append (d : Deps) (method_ target_ : String) (id : Nat)
    (pre suf : List Event) :
    trailerLabels d method_ target_ id (pre ++ suf) =
      trailerLabels d method_ target_ id pre ++ trailerLabels d method_ target_ id suf := by
  induction pre with
  | nil => simp [trailerLabels]
  | cons e rest ih => simp [trailerLabels, ih]

theorem statsThroughout_append (b : Bool) (pre suf : List Event) :
    statsThroughout b (pre ++ suf) ↔ statsThroughout b pre ∧ statsThroughout b suf := by
  simp only [statsThroughout, List.mem_append]
  constructor
  · intro h
    exact ⟨fun e he => h e (Or.inl he), fun e he => h e (Or.inr he)⟩
  · rintro ⟨h1, h2⟩ e (he | he)
    · exact h1 e he
    · exact h2 e he

/-- A hook that leaves the live attempts, the handles and the relevant members
of the call as they are, and is not counted for any attempt, preserves the
state of the live attempts. -/
theorem attemptsInv_of_frame {d : Deps} {method_ target_ : String} {L : List Label}
    {evs : List Event} {s s' : System} {e : Event}
    (hinv : AttemptsInv d method_ target_ L evs s)
    (hatt : s'.attempts = s.attempts) (hid : s'.next_id = s.next_id)
    (hcall : s'.call.method_ = s.call.method_ ∧ s'.call.target_ = s.call.target_ ∧
      s'.call.context_.labels = s.call.context_.labels)
    (hcount : ∀ id, countSendMessages id [e] = 0 ∧ countReceivedMessages id [e] = 0 ∧
      trailerLabels d method_ target_ id [e] = []) :
    AttemptsInv d method_ target_ L (evs ++ [e]) s' := by
  obtain ⟨i1, i2, i3, i4, i5⟩ := hinv
  have hc : ∀ id, countSendMessages id (evs ++ [e]) = countSendMessages id evs ∧
      countReceivedMessages id (evs ++ [e]) = countReceivedMessages id evs ∧
      trailerLabels d method_ target_ id (evs ++ [e]) =
        trailerLabels d method_ target_ id evs := by
    intro id
    obtain ⟨c1, c2, c3⟩ := hcount id
    unfold countSendMessages countReceivedMessages at *
    rw [List.count_append, List.count_append, trailerLabels_append, c1, c2, c3]
    simp
  refine ⟨?_, ?_, ?_, ?_, ?_⟩
  · rw [hatt, hid]; exact i1
  · rw [hatt]; exact i2
  · rw [hcall.1, hcall.2.1, hcall.2.2]; exact i3
  · intro id h
    rw [hid] at h
    rw [(hc id).1, (hc id).2.1, (hc id).2.2]
    exact i4 id h
  · intro id a hf
    rw [hatt] at hf
    obtain ⟨j1, j2, j3⟩ := i5 id a hf
    rw [(hc id).1, (hc id).2.1, (hc id).2.2]
    exact ⟨j1, j2, fun hst => j3 ((statsThroughout_append true evs [e]).1 hst).1⟩

/-- A hook on the live attempt with handle `k` that replaces it by `b`
preserves the state of the live attempts, when `b` accounts for the hook. -/
theorem attemptsInv_of_replace {d : Deps} {method_ target_ : String} {L : List Label}
    {evs : List Event} {s : System} {e : Event} {k : Nat}
    {a0 b : PythonOpenCensusCallAttemptTracer}
    (hinv : AttemptsInv d method_ target_ L evs s)
    (hfind : findAttempt k s.attempts = some a0)
    (hother : ∀ id, id ≠ k → countSendMessages id [e] = 0 ∧ countReceivedMessages id [e] = 0 ∧
      trailerLabels d method_ target_ id [e] = [])
    (hsent : b.sent_message_count_ % 2 ^ 64 =
      (a0.sent_message_count_ + countSendMessages k [e]) % 2 ^ 64 ∧
      b.sent_message_count_ < 2 ^ 64)
    (hrecv : b.recv_message_count_ % 2 ^ 64 =
      (a0.recv_message_count_ + countReceivedMessages k [e]) % 2 ^ 64 ∧
      b.recv_message_count_ < 2 ^ 64)
    (hlabels : statsThroughout true [e] →
      b.context_.labels = a0.context_.labels ++ trailerLabels d method_ target_ k [e]) :
    AttemptsInv d method_ target_ L (evs ++ [e])
      { s with attempts := replaceAttempt k b s.attempts } := by
  obtain ⟨i1, i2, i3, i4, i5⟩ := hinv
  have hk : k < s.next_id := i1 _ (mem_of_findAttempt hfind)
  have hc : ∀ id, id ≠ k → countSendMessages id (evs ++ [e]) = countSendMessages id evs ∧
      countReceivedMessages id (evs ++ [e]) = countReceivedMessages id evs ∧
      trailerLabels d method_ target_ id (evs ++ [e]) =
        trailerLabels d method_ target_ id evs := by
    intro id hne
    obtain ⟨c1, c2, c3⟩ := hother id hne
    unfold countSendMessages countReceivedMessages at *
    rw [List.count_append, List.count_append, trailerLabels_append, c1, c2, c3]
    simp
  refine ⟨?_, ?_, i3, ?_, ?_⟩
  · intro p hp
    have hp1 : p.1 ∈ (replaceAttempt k b s.attempts).map Prod.fst :=
      List.mem_map.2 ⟨p, hp, rfl⟩
    rw [map_fst_replaceAttempt] at hp1
    obtain ⟨q, hq, hq1⟩ := List.mem_map.1 hp1
    have := i1 q hq
    simp only at this ⊢
    omega
  · simp only [map_fst_replaceAttempt]
    exact i2
  · intro id h
    have hne : id ≠ k := by
      simp only at h
      omega
    rw [(hc id hne).1, (hc id hne).2.1, (hc id hne).2.2]
    exact i4 id h
  · intro id a hf
    simp only at hf
    rw [findAttempt_replaceAttempt] at hf
    by_cases hki : k = id
    · subst hki
      rw [if_pos rfl, hfind] at hf
      simp only [Option.map_some', Option.some.injEq] at hf
      subst hf
      obtain ⟨j1, j2, j3⟩ := i5 k a0 hfind
      refine ⟨?_, ?_, ?_⟩
      · have := hsent.1
        rw [Nat.mod_eq_of_lt hsent.2] at this
        unfold countSendMessages at *
        rw [List.count_append, this, j1]
        omega
      · have := hrecv.1
        rw [Nat.mod_eq_of_lt hrecv.2] at this
        unfold countReceivedMessages at *
        rw [List.count_append, this, j2]
        omega
      · intro hst
        obtain ⟨h1, h2⟩ := (statsThroughout_append true evs [e]).1 hst
        rw [hlabels h2, j3 h1, trailerLabels_append, List.append_assoc]
    · rw [if_neg hki] at hf
      have hne : id ≠ k := fun h => hki h.symm
      obtain ⟨j1, j2, j3⟩ := i5 id a hf
      rw [(hc id hne).1, (hc id hne).2.1, (hc id hne).2.2]
      exact ⟨j1, j2, fun hst => j3 ((statsThroughout_append true evs [e]).1 hst).1⟩

/-- Every hook preserves the state of the live attempts. -/
theorem step_attemptsInv {d : Deps} {method_ target_ : String} {L : List Label}
    {evs : List Event} {s s' : System} {e : Event}
    (hinv : AttemptsInv d method_ target_ L evs s) (h : step d s e = some s') :
    AttemptsInv d method_ target_ L (evs ++ [e]) s' := by
  have hinv0 := hinv
  obtain ⟨i1, i2, i3, i4, i5⟩ := hinv
  have hlt : ∀ {k a0}, findAttempt k s.attempts = some a0 →
      a0.sent_message_count_ < 2 ^ 64 ∧ a0.recv_message_count_ < 2 ^ 64 := by
    intro k a0 hf
    obtain ⟨j1, j2, -⟩ := i5 k a0 hf
    rw [j1, j2]
    constructor <;> exact Nat.mod_lt _ (by norm_num)
  cases e with
  | StartNewAttempt stats now start_now status0 tr =>
    simp [step] at h
    subst h
    have hc : ∀ id, countSendMessages id
          (evs ++ [Event.StartNewAttempt stats now start_now status0 tr]) =
          countSendMessages id evs ∧
        countReceivedMessages id
          (evs ++ [Event.StartNewAttempt stats now start_now status0 tr]) =
          countReceivedMessages id evs ∧
        trailerLabels d method_ target_ id
          (evs ++ [Event.StartNewAttempt stats now start_now status0 tr]) =
          trailerLabels d method_ target_ id evs := by
      intro id
      simp [countSendMessages, countReceivedMessages, List.count_append, trailerLabels_append,
        trailerLabels, trailerLabelsOf]
    refine ⟨?_, ?_, ?_, ?_, ?_⟩
    · intro p hp
      simp only [List.mem_append, List.mem_singleton] at hp
      rcases hp with hp | rfl
      · exact Nat.lt_succ_of_lt (i1 p hp)
      · simp
    · simp only [List.map_append, List.map_cons, List.map_nil]
      refine List.Nodup.append i2 (by simp) ?_
      intro x hx hx2
      simp only [List.mem_singleton] at hx2
      subst hx2
      obtain ⟨q, hq, hq1⟩ := List.mem_map.1 hx
      have := i1 q hq
      omega
    · simpa [PythonOpenCensusCallTracer.StartNewAttempt,
        PythonCensusContext.IncreaseChildSpanCount] using i3
    · intro id hid
      rw [(hc id).1, (hc id).2.1, (hc id).2.2]
      exact i4 id (by simp only at hid; omega)
    · intro id a hf
      simp only at hf
      rw [findAttempt_append_singleton] at hf
      rw [(hc id).1, (hc id).2.1, (hc id).2.2]
      cases hl : findAttempt id s.attempts with
      | some a0 =>
        rw [hl] at hf
        simp only [Option.some.injEq] at hf
        subst hf
        obtain ⟨j1, j2, j3⟩ := i5 id a0 hl
        exact ⟨j1, j2, fun hst => j3 ((statsThroughout_append true evs _).1 hst).1⟩
      | none =>
        rw [hl] at hf
        by_cases hid : s.next_id = id
        · subst hid
          simp only [if_true, Option.some.injEq] at hf
          subst hf
          obtain ⟨z1, z2, z3⟩ := i4 s.next_id (Nat.le_refl _)
          rw [z1, z2, z3]
          refine ⟨?_, ?_, ?_⟩
          · cases stats <;>
              simp [PythonOpenCensusCallTracer.StartNewAttempt,
                PythonOpenCensusCallAttemptTracer.create]
          · cases stats <;>
              simp [PythonOpenCensusCallTracer.StartNewAttempt,
                PythonOpenCensusCallAttemptTracer.create]
          · intro hst
            have hs : stats = true := by
              have := ((statsThroughout_append true evs _).1 hst).2
              simpa [statsThroughout, Event.statsRead] using this
            subst hs
            cases htr : s.call.tracing_enabled_ <;>
              simp [PythonOpenCensusCallTracer.StartNewAttempt,
                PythonOpenCensusCallAttemptTracer.create,
                PythonOpenCensusCallTracer.CreateCensusContextForCallAttempt,
                PythonCensusContext.child, PythonCensusContext.AddSpanAttribute,
                PythonCensusContext.IncreaseChildSpanCount, htr, i3.1, i3.2.1, i3.2.2]
        · simp [hid] at hf
  | RecordEnd id stats now =>
    simp [step, Option.map_eq_some'] at h
    obtain ⟨a0, ha, rfl⟩ := h
    have hk : id < s.next_id := i1 _ (mem_of_findAttempt ha)
    have hcall : (a0.RecordEnd d stats now s.call).1.method_ = s.call.method_ ∧
        (a0.RecordEnd d stats now s.call).1.target_ = s.call.target_ ∧
        (a0.RecordEnd d stats now s.call).1.context_ = s.call.context_ := by
      cases stats <;> simp [PythonOpenCensusCallAttemptTracer.RecordEnd]
      split <;> simp
    have hc : ∀ k, countSendMessages k (evs ++ [Event.RecordEnd id stats now]) =
          countSendMessages k evs ∧
        countReceivedMessages k (evs ++ [Event.RecordEnd id stats now]) =
          countReceivedMessages k evs ∧
        trailerLabels d method_ target_ k (evs ++ [Event.RecordEnd id stats now]) =
          trailerLabels d method_ target_ k evs := by
      intro k
      simp [countSendMessages, countReceivedMessages, List.count_append, trailerLabels_append,
        trailerLabels, trailerLabelsOf]
    refine ⟨?_, ?_, ?_, ?_, ?_⟩
    · intro p hp
      exact i1 p ((removeAttempt_sublist id s.attempts).subset hp)
    · exact List.Nodup.sublist ((removeAttempt_sublist id s.attempts).map Prod.fst) i2
    · simp only
      rw [hcall.1, hcall.2.1, hcall.2.2]
      exact i3
    · intro k hk2
      rw [(hc k).1, (hc k).2.1, (hc k).2.2]
      exact i4 k hk2
    · intro k a hf
      simp only at hf
      by_cases hki : id = k
      · subst hki
        rw [findAttempt_removeAttempt_self id s.attempts i2] at hf
        simp at hf
      · rw [findAttempt_removeAttempt_ne hki] at hf
        obtain ⟨j1, j2, j3⟩ := i5 k a hf
        rw [(hc k).1, (hc k).2.1, (hc k).2.2]
        exact ⟨j1, j2, fun hst => j3 ((statsThroughout_append true evs _).1 hst).1⟩
  | CallRecordAnnotation x | CallRecordAnnotationStructured x =>
    simp [step] at h
    subst h
    refine attemptsInv_of_frame hinv0 rfl rfl ?_ ?_
    · simp only [PythonOpenCensusCallTracer.RecordAnnotation,
        PythonOpenCensusCallTracer.RecordAnnotationStructured]
      repeat' split
      all_goals simp [PythonCensusContext.AddSpanAnnotation]
    · intro id
      simp [countSendMessages, countReceivedMessages, trailerLabels, trailerLabelsOf]
  | RecordSendInitialMetadata id stats md =>
    simp [step, Option.map_eq_some'] at h
    obtain ⟨a0, -, rfl⟩ := h
    refine attemptsInv_of_frame hinv0 rfl rfl ⟨rfl, rfl, rfl⟩ ?_
    intro k
    simp [countSendMessages, countReceivedMessages, trailerLabels, trailerLabelsOf]
  | RecordSendMessage id =>
    simp [step, Option.map_eq_some'] at h
    obtain ⟨a0, ha, rfl⟩ := h
    refine attemptsInv_of_replace hinv0 ha ?_ ?_ ?_ ?_
    · intro k hk
      simp [countSendMessages, countReceivedMessages, trailerLabels, trailerLabelsOf,
        List.count_eq_zero, hk]
    · simp [PythonOpenCensusCallAttemptTracer.RecordSendMessage, countSendMessages, incU64]
      omega
    · simpa [PythonOpenCensusCallAttemptTracer.RecordSendMessage, countReceivedMessages]
        using (hlt ha).2
    · intro _
      simp [PythonOpenCensusCallAttemptTracer.RecordSendMessage, trailerLabels, trailerLabelsOf]
  | RecordReceivedMessage id =>
    simp [step, Option.map_eq_some'] at h
    obtain ⟨a0, ha, rfl⟩ := h
    refine attemptsInv_of_replace hinv0 ha ?_ ?_ ?_ ?_
    · intro k hk
      simp [countSendMessages, countReceivedMessages, trailerLabels, trailerLabelsOf,
        List.count_eq_zero, hk]
    · simpa [PythonOpenCensusCallAttemptTracer.RecordReceivedMessage, countSendMessages]
        using (hlt ha).1
    · simp [PythonOpenCensusCallAttemptTracer.RecordReceivedMessage, countReceivedMessages,
        incU64]
      omega
    · intro _
      simp [PythonOpenCensusCallAttemptTracer.RecordReceivedMessage, trailerLabels,
        trailerLabelsOf]
  | RecordReceivedTrailingMetadata id stats now status md ts =>
    simp [step, Option.map_eq_some'] at h
    obtain ⟨a0, ha, rfl⟩ := h
    refine attemptsInv_of_replace hinv0 ha ?_ ?_ ?_ ?_
    · intro k hk
      cases stats <;>
        simp [countSendMessages, countReceivedMessages, trailerLabels, trailerLabelsOf,
          Ne.symm hk]
    · cases stats <;>
        simpa [PythonOpenCensusCallAttemptTracer.RecordReceivedTrailingMetadata,
          countSendMessages] using (hlt ha).1
    · cases stats <;>
        simpa [PythonOpenCensusCallAttemptTracer.RecordReceivedTrailingMetadata,
          countReceivedMessages] using (hlt ha).2
    · intro hst
      have hs : stats = true := by simpa [statsThroughout, Event.statsRead] using hst
      subst hs
      simp [PythonOpenCensusCallAttemptTracer.RecordReceivedTrailingMetadata, trailerLabels,
        trailerLabelsOf, i3.1, i3.2.1]
  | RecordCancel id =>
    simp [step, Option.map_eq_some'] at h
    obtain ⟨a0, ha, rfl⟩ := h
    refine attemptsInv_of_replace hinv0 ha ?_ ?_ ?_ ?_
    · intro k hk
      simp [countSendMessages, countReceivedMessages, trailerLabels, trailerLabelsOf]
    · simpa [PythonOpenCensusCallAttemptTracer.RecordCancel, countSendMessages]
        using (hlt ha).1
    · simpa [PythonOpenCensusCallAttemptTracer.RecordCancel, countReceivedMessages]
        using (hlt ha).2
    · intro _
      simp [PythonOpenCensusCallAttemptTracer.RecordCancel, trailerLabels, trailerLabelsOf]
  | AttemptRecordAnnotation id x | AttemptRecordAnnotationStructured id x =>
    simp [step, Option.map_eq_some'] at h
    obtain ⟨a0, ha, rfl⟩ := h
    refine attemptsInv_of_replace hinv0 ha ?_ ?_ ?_ ?_
    · intro k hk
      simp [countSendMessages, countReceivedMessages, trailerLabels, trailerLabelsOf]
    · simp only [PythonOpenCensusCallAttemptTracer.RecordAnnotation,
        PythonOpenCensusCallAttemptTracer.RecordAnnotationStructured]
      repeat' split
      all_goals simpa [countSendMessages] using (hlt ha).1
    · simp only [PythonOpenCensusCallAttemptTracer.RecordAnnotation,
        PythonOpenCensusCallAttemptTracer.RecordAnnotationStructured]
      repeat' split
      all_goals simpa [countReceivedMessages] using (hlt ha).2
    · intro _
      simp only [PythonOpenCensusCallAttemptTracer.RecordAnnotation,
        PythonOpenCensusCallAttemptTracer.RecordAnnotationStructured]
      repeat' split
      all_goals simp [PythonCensusContext.AddSpanAnnotation, trailerLabels, trailerLabelsOf]

/-- The state of the live attempts holds after every sequence of hooks on a
call tracer taken right after its construction. -/
theorem run_attemptsInv {d : Deps} (t : PythonOpenCensusCallTracer) (evs : List Event) :
    ∀ {s : System}, run d (System.start t) evs = some s →
      AttemptsInv d t.method_ t.target_ t.context_.labels evs s := by
  induction evs using List.reverseRecOn with
  | nil =>
    intro s h
    simp [run] at h
    subst h
    simp [AttemptsInv, System.start, findAttempt, countSendMessages, countReceivedMessages,
      trailerLabels]
  | append_singleton l e ih =>
    intro s h
    rw [run_append] at h
    cases h1 : run d (System.start t) l with
    | none => rw [h1] at h; simp at h
    | some s1 =>
      rw [h1] at h
      simp only [Option.some_bind, run_cons] at h
      cases h2 : step d s1 e with
      | none => rw [h2] at h; simp at h
      | some s2 =>
        rw [h2] at h
        simp only [Option.some_bind, run_nil, Option.some.injEq] at h
        subst h
        exact step_attemptsInv (ih h1) h2

/-- C14. An attempt of a freshly constructed call tracer is live after the
hooks `evs`, among which `RecordSendMessage` was called `m` times and
`RecordReceivedMessage` `n` times on its handle (in any interleaving with the
other hooks on this attempt, on other attempts and on the call; `m` and `n`
below `2 ^ 64`). Then `RecordEnd` with stats enabled emits the sent-messages
metric once with value `m` and the received-messages metric once with value
`n`. Each of the two message hooks changes only its own counter, by exactly 1,
and `RecordCancel` changes nothing. -/
theorem C14_message_counts (d : Deps) (t : PythonOpenCensusCallTracer) (evs : List Event)
    (s : System) (id : Nat) (a b : PythonOpenCensusCallAttemptTracer) (now : Int)
    (hrun : run d (System.start t) evs = some s)
    (hlive : findAttempt id s.attempts = some a)
    (hm : countSendMessages id evs < 2 ^ 64) (hn : countReceivedMessages id evs < 2 ^ 64) :
    valuesOf MetricsName.kRpcClientSentMessagesPerRpcMeasureName
        (a.RecordEnd d true now s.call).2.2.metrics =
        [MetricValue.int (countSendMessages id evs)] ∧
      valuesOf MetricsName.kRpcClientReceivedMessagesPerRpcMeasureName
        (a.RecordEnd d true now s.call).2.2.metrics =
        [MetricValue.int (countReceivedMessages id evs)] ∧
      b.RecordSendMessage =
        { b with sent_message_count_ := (b.sent_message_count_ + 1) % 2 ^ 64 } ∧
      b.RecordReceivedMessage =
        { b with recv_message_count_ := (b.recv_message_count_ + 1) % 2 ^ 64 } ∧
      b.RecordCancel = b := by
  obtain ⟨-, -, -, -, i5⟩ := run_attemptsInv t evs hrun
  obtain ⟨j1, j2, -⟩ := i5 id a hlive
  rw [Nat.mod_eq_of_lt hm] at j1
  rw [Nat.mod_eq_of_lt hn] at j2
  refine ⟨?_, ?_, rfl, rfl, rfl⟩
  · simp [PythonOpenCensusCallAttemptTracer.RecordEnd, valuesOf, j1]
  · simp [PythonOpenCensusCallAttemptTracer.RecordEnd, valuesOf, j2]

/-- Witness of C14: the last attempt of the sample lifecycle, right before its
trailing metadata arrive; it has sent one message and received one. -/
theorem C14_message_counts_witness :
    ∃ (s : System) (a : PythonOpenCensusCallAttemptTracer),
      run sampleDeps (System.start sampleCall) (lifecycleB.take 14) = some s ∧
      findAttempt 3 s.attempts = some a ∧
      countSendMessages 3 (lifecycleB.take 14) = 1 ∧
      countReceivedMessages 3 (lifecycleB.take 14) = 1 ∧
      valuesOf MetricsName.kRpcClientSentMessagesPerRpcMeasureName
        (a.RecordEnd sampleDeps true 81 s.call).2.2.metrics =
        [MetricValue.int (countSendMessages 3 (lifecycleB.take 14))] ∧
      valuesOf MetricsName.kRpcClientReceivedMessagesPerRpcMeasureName
        (a.RecordEnd sampleDeps true 81 s.call).2.2.metrics =
        [MetricValue.int (countReceivedMessages 3 (lifecycleB.take 14))] ∧
      sampleAttemptUnsampled.RecordSendMessage =
        { sampleAttemptUnsampled with
            sent_message_count_ := (sampleAttemptUnsampled.sent_message_count_ + 1) % 2 ^ 64 } ∧
      sampleAttemptUnsampled.RecordReceivedMessage =
        { sampleAttemptUnsampled with
            recv_message_count_ := (sampleAttemptUnsampled.recv_message_count_ + 1) % 2 ^ 64 } ∧
      sampleAttemptUnsampled.RecordCancel = sampleAttemptUnsampled :=
  ⟨_, _, rfl, rfl, by decide, by decide,
    C14_message_counts sampleDeps sampleCall (lifecycleB.take 14) _ 3 _ sampleAttemptUnsampled
      81 rfl rfl (by decide) (by decide)⟩

/-- C17. With stats enabled throughout, the label list attached to the
metrics `RecordEnd` emits for a live attempt of a call constructed with label
list `L` is `L ++ [method, target]`, followed by `[method, target, status]`
for every `RecordReceivedTrailingMetadata` hook the attempt received, in
order, followed by `[method, status]`; nothing is removed or de-duplicated.
In particular, after construction, one trailing-metadata hook and `RecordEnd`
the list is `L` followed by seven labels, has length `|L| + 7`, and the method
key occurs three times more often than in `L`. Every hook of an attempt keeps
the labels the attempt had as an initial segment of the labels it leaves. -/
theorem C17_labels_only_grow (d : Deps) (t : PythonOpenCensusCallTracer) (evs : List Event)
    (s : System) (id : Nat) (a b : PythonOpenCensusCallAttemptTracer) (now : Int)
    (parent : PythonOpenCensusCallTracer) (start_now now1 now2 : Int)
    (status0 status : StatusCode) (attempt_num : Nat) (is_transparent_retry stats : Bool)
    (md : Option MetadataBatch) (ts : Option TransportStreamStats) (text : String)
    (structured : Annotation)
    (hrun : run d (System.start t) evs = some s)
    (hlive : findAttempt id s.attempts = some a)
    (hstats : statsThroughout true evs) :
    (∀ m ∈ (a.RecordEnd d true now s.call).2.2.metrics,
        m.labels =
          t.context_.labels ++
            [⟨LabelKey.kClientMethod, t.method_⟩, ⟨LabelKey.kClientTarget, t.target_⟩] ++
            trailerLabels d t.method_ t.target_ id evs ++
            [⟨LabelKey.kClientMethod, t.method_⟩,
             ⟨LabelKey.kClientStatus, d.StatusCodeToString a.status_code_⟩]) ∧
      (∀ m ∈ endMetricsAfterOneTrailer d parent start_now now1 now2 status0 status attempt_num
          is_transparent_retry md ts,
        m.labels =
          parent.context_.labels ++
            [⟨LabelKey.kClientMethod, parent.method_⟩, ⟨LabelKey.kClientTarget, parent.target_⟩,
             ⟨LabelKey.kClientMethod, parent.method_⟩, ⟨LabelKey.kClientTarget, parent.target_⟩,
             ⟨LabelKey.kClientStatus, d.StatusCodeToString status⟩,
             ⟨LabelKey.kClientMethod, parent.method_⟩,
             ⟨LabelKey.kClientStatus, d.StatusCodeToString status0⟩] ∧
        m.labels.length = parent.context_.labels.length + 7 ∧
        countMethodKey m.labels = countMethodKey parent.context_.labels + 3) ∧
      b.context_.labels <+:
        (b.RecordReceivedTrailingMetadata d stats now1 parent status md ts).1.context_.labels ∧
      b.context_.labels <+: (b.RecordEnd d stats now2 parent).2.1.context_.labels ∧
      b.RecordSendMessage.context_.labels = b.context_.labels ∧
      b.RecordReceivedMessage.context_.labels = b.context_.labels ∧
      b.RecordCancel.context_.labels = b.context_.labels ∧
      (b.RecordAnnotation text).context_.labels = b.context_.labels ∧
      (b.RecordAnnotationStructured structured).context_.labels = b.context_.labels := by
  obtain ⟨-, -, i3, -, i5⟩ := run_attemptsInv t evs hrun
  obtain ⟨-, -, j3⟩ := i5 id a hlive
  have hl := j3 hstats
  refine ⟨?_, ?_, ?_, ?_, rfl, rfl, rfl, ?_, ?_⟩
  · intro m hm
    simp only [PythonOpenCensusCallAttemptTracer.RecordEnd, if_true, List.mem_cons,
      List.mem_singleton, List.not_mem_nil, or_false] at hm
    rcases hm with rfl | rfl <;> simp [hl, i3.1]
  · intro m hm
    have hlab : m.labels =
        parent.context_.labels ++
          [⟨LabelKey.kClientMethod, parent.method_⟩, ⟨LabelKey.kClientTarget, parent.target_⟩,
           ⟨LabelKey.kClientMethod, parent.method_⟩, ⟨LabelKey.kClientTarget, parent.target_⟩,
           ⟨LabelKey.kClientStatus, d.StatusCodeToString status⟩,
           ⟨LabelKey.kClientMethod, parent.method_⟩,
           ⟨LabelKey.kClientStatus, d.StatusCodeToString status0⟩] := by
      simp only [endMetricsAfterOneTrailer, PythonOpenCensusCallAttemptTracer.RecordEnd,
        PythonOpenCensusCallAttemptTracer.RecordReceivedTrailingMetadata,
        PythonOpenCensusCallAttemptTracer.create, if_true, Bool.not_true, Bool.false_eq_true,
        if_false, List.mem_cons, List.mem_singleton, List.not_mem_nil, or_false] at hm
      rcases hm with rfl | rfl <;>
        cases htr : parent.tracing_enabled_ <;>
        simp [PythonOpenCensusCallTracer.CreateCensusContextForCallAttempt,
          PythonCensusContext.child, PythonCensusContext.AddSpanAttribute, htr]
    refine ⟨hlab, ?_, ?_⟩
    · rw [hlab]; simp
    · rw [hlab]; simp [countMethodKey, List.filter_append, List.filter]
  · cases stats <;>
      simp [PythonOpenCensusCallAttemptTracer.RecordReceivedTrailingMetadata]
  · cases stats <;> cases htr : parent.tracing_enabled_ <;>
      by_cases hs : b.status_code_ = StatusCode.kOk <;>
      simp [PythonOpenCensusCallAttemptTracer.RecordEnd, PythonCensusContext.EndSpan,
        PythonCensusContext.SetStatus, hs, htr]
  · simp only [PythonOpenCensusCallAttemptTracer.RecordAnnotation]
    split <;> simp [PythonCensusContext.AddSpanAnnotation]
  · simp only [PythonOpenCensusCallAttemptTracer.RecordAnnotationStructured]
    repeat' split
    all_goals simp [PythonCensusContext.AddSpanAnnotation]

/-- Witness of C17: the last attempt of the sample lifecycle, right after its
trailing metadata arrived. -/
theorem C17_labels_only_grow_witness :
    ∃ (s : System) (a : PythonOpenCensusCallAttemptTracer),
      run sampleDeps (System.start sampleCall) (lifecycleB.take 15) = some s ∧
      findAttempt 3 s.attempts = some a ∧
      (∀ m ∈ (a.RecordEnd sampleDeps true 81 s.call).2.2.metrics,
        m.labels =
          sampleCall.context_.labels ++
            [⟨LabelKey.kClientMethod, sampleCall.method_⟩,
             ⟨LabelKey.kClientTarget, sampleCall.target_⟩] ++
            trailerLabels sampleDeps sampleCall.method_ sampleCall.target_ 3
              (lifecycleB.take 15) ++
            [⟨LabelKey.kClientMethod, sampleCall.method_⟩,
             ⟨LabelKey.kClientStatus, sampleDeps.StatusCodeToString a.status_code_⟩]) ∧
      (∀ m ∈ endMetricsAfterOneTrailer sampleDeps sampleCall 71 80 81 StatusCode.kOk
          StatusCode.kUnavailable 3 false none none,
        m.labels =
          sampleCall.context_.labels ++
            [⟨LabelKey.kClientMethod, sampleCall.method_⟩,
             ⟨LabelKey.kClientTarget, sampleCall.target_⟩,
             ⟨LabelKey.kClientMethod, sampleCall.method_⟩,
             ⟨LabelKey.kClientTarget, sampleCall.target_⟩,
             ⟨LabelKey.kClientStatus, sampleDeps.StatusCodeToString StatusCode.kUnavailable⟩,
             ⟨LabelKey.kClientMethod, sampleCall.method_⟩,
             ⟨LabelKey.kClientStatus, sampleDeps.StatusCodeToString StatusCode.kOk⟩] ∧
        m.labels.length = sampleCall.context_.labels.length + 7 ∧
        countMethodKey m.labels = countMethodKey sampleCall.context_.labels + 3) ∧
      sampleAttemptUnsampled.context_.labels <+:
        (sampleAttemptUnsampled.RecordReceivedTrailingMetadata sampleDeps true 80 sampleCall
          StatusCode.kUnavailable none none).1.context_.labels ∧
      sampleAttemptUnsampled.context_.labels <+:
        (sampleAttemptUnsampled.RecordEnd sampleDeps true 81 sampleCall).2.1.context_.labels ∧
      sampleAttemptUnsampled.RecordSendMessage.context_.labels =
        sampleAttemptUnsampled.context_.labels ∧
      sampleAttemptUnsampled.RecordReceivedMessage.context_.labels =
        sampleAttemptUnsampled.context_.labels ∧
      sampleAttemptUnsampled.RecordCancel.context_.labels =
        sampleAttemptUnsampled.context_.labels ∧
      (sampleAttemptUnsampled.RecordAnnotation "x").context_.labels =
        sampleAttemptUnsampled.context_.labels ∧
      (sampleAttemptUnsampled.RecordAnnotationStructured ⟨1, "y"⟩).context_.labels =
        sampleAttemptUnsampled.context_.labels :=
  ⟨_, _, rfl, rfl,
    C17_labels_only_grow sampleDeps sampleCall (lifecycleB.take 15) _ 3 _
      sampleAttemptUnsampled 81 sampleCall 71 80 81 StatusCode.kOk StatusCode.kUnavailable 3
      false true none none "x" ⟨1, "y"⟩ rfl rfl (by decide)⟩

/-- A run of the loop that returns with some fuel returns the same with more
fuel. -/
theorem pingPongLoop_fuel_mono (max_size : Int) (extra : Nat) :
    ∀ (fuel : Nat) (msg_size : Int) (args r : List (Int × Int)),
      pingPongLoop max_size fuel msg_size args = ArgsOutcome.returned r →
      pingPongLoop max_size (fuel + extra) msg_size args = ArgsOutcome.returned r := by
  intro fuel
  induction fuel with
  | zero =>
    intro msg_size args r h
    simp [pingPongLoop] at h
  | succ n ih =>
    intro msg_size args r h
    rw [Nat.succ_add]
    simp only [pingPongLoop] at h ⊢
    by_cases hle : msg_size ≤ max_size
    · rw [if_pos hle] at h ⊢
      cases hn : nextMsgSize msg_size with
      | none => rw [hn] at h; simp at h
      | some next => rw [hn] at h; exact ih next _ r h
    · rw [if_neg hle] at h ⊢
      exact h

/-- C18. For both values of `kMaxMessageSize`, 8 MiB and 128 MiB,
`StreamingPingPongArgs` returns (with fuel for 12 tests of the loop
condition, and with any larger fuel) without an overflow of its `int`
counter, and the argument pairs it registers are `(0, 0)` first and then, for
each message size among 0 and the powers of 8 that are at most
`kMaxMessageSize`, in increasing order, the pairs `(size, 1)` and `(size, 2)`.
Every registered message count is 0, 1 or 2; for 128 MiB exactly 23 pairs are
registered (19 for 8 MiB), the largest message size is `8 ^ 9`, and the value
of the counter that ends the loop, `8 ^ 10`, is below `2 ^ 31`. -/
theorem C18_streaming_ping_pong_args (built_under_sanitizer : Bool) (fuel : Nat)
    (hfuel : 12 ≤ fuel) :
    StreamingPingPongArgs (kMaxMessageSize built_under_sanitizer) fuel =
        ArgsOutcome.returned (smallStreamArgs (kMaxMessageSize built_under_sanitizer)) ∧
      (∀ p ∈ smallStreamArgs (kMaxMessageSize built_under_sanitizer),
        p.2 = 0 ∨ p.2 = 1 ∨ p.2 = 2) ∧
      (smallStreamArgs (kMaxMessageSize false)).length = 23 ∧
      (smallStreamArgs (kMaxMessageSize true)).length = 19 ∧
      smallStreamSizes (kMaxMessageSize false) =
        [0, 1, 8, 64, 512, 4096, 32768, 262144, 2097152, 16777216, 134217728] ∧
      smallStreamSizes (kMaxMessageSize true) =
        [0, 1, 8, 64, 512, 4096, 32768, 262144, 2097152] ∧
      nextMsgSize 134217728 = some 1073741824 ∧
      nextMsgSize 2097152 = some 16777216 := by
  obtain ⟨extra, rfl⟩ : ∃ extra, fuel = 12 + extra := ⟨fuel - 12, by omega⟩
  refine ⟨?_, ?_, by decide, by decide, by decide, by decide, by decide, by decide⟩
  · unfold StreamingPingPongArgs
    apply pingPongLoop_fuel_mono
    cases built_under_sanitizer <;> decide
  · cases built_under_sanitizer <;> decide

/-- Witness of C18 with fuel for exactly 12 tests of the loop condition and
the default value of `kMaxMessageSize`. -/
theorem C18_streaming_ping_pong_args_witness :
    StreamingPingPongArgs (kMaxMessageSize false) 12 =
        ArgsOutcome.returned (smallStreamArgs (kMaxMessageSize false)) ∧
      (∀ p ∈ smallStreamArgs (kMaxMessageSize false), p.2 = 0 ∨ p.2 = 1 ∨ p.2 = 2) ∧
      (smallStreamArgs (kMaxMessageSize false)).length = 23 ∧
      (smallStreamArgs (kMaxMessageSize true)).length = 19 ∧
      smallStreamSizes (kMaxMessageSize false) =
        [0, 1, 8, 64, 512, 4096, 32768, 262144, 2097152, 16777216, 134217728] ∧
      smallStreamSizes (kMaxMessageSize true) =
        [0, 1, 8, 64, 512, 4096, 32768, 262144, 2097152] ∧
      nextMsgSize 134217728 = some 1073741824 ∧
      nextMsgSize 2097152 = some 16777216 :=
  C18_streaming_ping_pong_args false 12 (by decide)

end GrpcObservability
